import Mathlib

set_option maxHeartbeats 1000000

/-!
Verification of the Warp2Api token pool and upstream streaming engine.

The definitions below are a shallow embedding of
`src/warp2protobuf/core/token_pool.py` and
`src/warp2protobuf/warp/api_client.py`: Python byte strings become
`List Nat` (each element < 256), text becomes `List Char` or `String`,
floating point timestamps become `Int` seconds (only order comparisons
matter), and the network is an oracle threaded through explicitly.
-/

/-! ### Python string helpers -/

/-- ASCII whitespace matched by the regex class `\s` (used in
`_parse_payload_bytes`) and stripped by Python `str.strip()`. -/
def isPySpace (c : Char) : Bool :=
  c = ' ' || c = '\t' || c = '\n' || c = '\r' || c = '\x0b' || c = '\x0c'

/-- Python `str.strip()` (ASCII whitespace fragment). -/
def pyStrip (s : List Char) : List Char :=
  ((s.dropWhile isPySpace).reverse.dropWhile isPySpace).reverse

/-! ### Hex decoding (`bytes.fromhex`) -/

/-- Value of one hex digit, matching the character class `[0-9a-fA-F]`. -/
def hexDigitVal? (c : Char) : Option Nat :=
  if '0' ≤ c ∧ c ≤ '9' then some (c.toNat - '0'.toNat)
  else if 'a' ≤ c ∧ c ≤ 'f' then some (c.toNat - 'a'.toNat + 10)
  else if 'A' ≤ c ∧ c ≤ 'F' then some (c.toNat - 'A'.toNat + 10)
  else none

/-- The character class `[0-9a-fA-F]` from `_parse_payload_bytes`. -/
def isHexChar (c : Char) : Bool :=
  (hexDigitVal? c).isSome

/-- `bytes.fromhex` on a whitespace-free string: decodes pairs of hex
digits, failing on odd length or a non-hex character. -/
def hexDecode? : List Char → Option (List Nat)
  | [] => some []
  | [_] => none
  | c1 :: c2 :: rest =>
    match hexDigitVal? c1, hexDigitVal? c2, hexDecode? rest with
    | some h, some l, some tl => some ((16 * h + l) :: tl)
    | _, _, _ => none

/-- Lowercase hex digit of a value below 16, as produced by Python
`bytes.hex()`. -/
def hexDigitChar (n : Nat) : Char :=
  if n < 10 then Char.ofNat ('0'.toNat + n) else Char.ofNat ('a'.toNat + n - 10)

/-- Python `bytes.hex()`: the hex encoding the upstream may use to frame
an SSE payload (spec section "SSE framing"). -/
def hexEncode : List Nat → List Char
  | [] => []
  | x :: rest => hexDigitChar (x / 16) :: hexDigitChar (x % 16) :: hexEncode rest

/-! ### Base64 decoding (`base64.b64decode` / `base64.urlsafe_b64decode`) -/

/-- Standard base64 alphabet index of a character. -/
def b64IdxStd? (c : Char) : Option Nat :=
  if 'A' ≤ c ∧ c ≤ 'Z' then some (c.toNat - 'A'.toNat)
  else if 'a' ≤ c ∧ c ≤ 'z' then some (c.toNat - 'a'.toNat + 26)
  else if '0' ≤ c ∧ c ≤ '9' then some (c.toNat - '0'.toNat + 52)
  else if c = '+' then some 62
  else if c = '/' then some 63
  else none

/-- URL-safe base64 alphabet index.  Python's `urlsafe_b64decode`
translates '-' to '+' and '_' to '/' and then runs the standard decoder,
so it accepts characters of both alphabets. -/
def b64IdxUrl? (c : Char) : Option Nat :=
  if c = '-' then some 62 else if c = '_' then some 63 else b64IdxStd? c

/-- URL-safe base64 alphabet character for a 6-bit index. -/
def b64UrlChar (n : Nat) : Char :=
  if n < 26 then Char.ofNat ('A'.toNat + n)
  else if n < 52 then Char.ofNat ('a'.toNat + n - 26)
  else if n < 62 then Char.ofNat ('0'.toNat + n - 52)
  else if n = 62 then '-' else '_'

/-- The 6-bit index sequence of a byte string (base64 encoding before the
alphabet map; a final group of 1 or 2 bytes yields 2 or 3 indices). -/
def b64Indices : List Nat → List Nat
  | [] => []
  | [a] => [a / 4, a % 4 * 16]
  | [a, b] => [a / 4, a % 4 * 16 + b / 16, b % 16 * 4]
  | a :: b :: c :: rest =>
    a / 4 :: (a % 4 * 16 + b / 16) :: (b % 16 * 4 + c / 64) :: c % 64 ::
      b64Indices rest

/-- Python `base64.urlsafe_b64encode(bs).rstrip(b'=')`: the padding-stripped
URL-safe encoding the upstream may use to frame an SSE payload. -/
def b64UrlEncodeNoPad (bs : List Nat) : List Char :=
  (b64Indices bs).map b64UrlChar

/-- Reassemble bytes from a 6-bit index sequence (complete quads plus a
final group of 2 or 3 indices; leftover bits are dropped, as by
`binascii.a2b_base64` without strict mode). -/
def b64DecodeQuads : List Nat → List Nat
  | a :: b :: c :: d :: rest =>
    (a * 4 + b / 16) :: (b % 16 * 16 + c / 4) :: (c % 4 * 64 + d) ::
      b64DecodeQuads rest
  | [a, b] => [a * 4 + b / 16]
  | [a, b, c] => [a * 4 + b / 16, b % 16 * 16 + c / 4]
  | _ => []

/-- Python `base64.b64decode` (with `urlsafe_b64decode` obtained by passing
`b64IdxUrl?`), modelled on well-formed input: alphabet characters followed
by correct '=' padding.  Python additionally discards characters outside
the alphabet before decoding; every string this development feeds to the
decoder is alphabet-only, where both semantics agree, and other strings
are conservatively mapped to `none` (Python raises `binascii.Error` on
them, which the caller turns into the same fallthrough). -/
def b64decode? (idx : Char → Option Nat) (s : List Char) : Option (List Nat) :=
  let dataChars := s.takeWhile (fun c => c ≠ '=')
  let padChars := s.dropWhile (fun c => c ≠ '=')
  if padChars.all (fun c => c = '=') then
    match dataChars.mapM idx with
    | none => none
    | some ds =>
      if (ds.length % 4 = 0 ∧ padChars.length = 0) ∨
         (ds.length % 4 = 2 ∧ padChars.length = 2) ∨
         (ds.length % 4 = 3 ∧ padChars.length = 1) then
        some (b64DecodeQuads ds)
      else none
  else none

/-- `_parse_payload_bytes` from `send_protobuf_to_warp_api`
(`src/warp2protobuf/warp/api_client.py` lines 249-266): strip all
whitespace; empty means no payload; a full match of `[0-9a-fA-F]+` is
first tried as hex (`bytes.fromhex`, which fails on odd length and then
falls through); otherwise restore '=' padding and try URL-safe base64,
then standard base64. -/
def parse_payload_bytes (input : List Char) : Option (List Nat) :=
  let s := input.filter (fun c => !(isPySpace c))
  if s = [] then none
  else
    let hexAttempt : Option (List Nat) :=
      if s.all isHexChar then hexDecode? s else none
    match hexAttempt with
    | some b => some b
    | none =>
      let pad : List Char := List.replicate ((4 - s.length % 4) % 4) '='
      match b64decode? b64IdxUrl? (s ++ pad) with
      | some b => some b
      | none => b64decode? b64IdxStd? (s ++ pad)

/-- `_parse_payload_bytes2` from `send_protobuf_to_warp_api_parsed`
(lines 558-575) is character-for-character the same function. -/
def parse_payload_bytes2 (input : List Char) : Option (List Nat) :=
  parse_payload_bytes input

/-! ### Token pool (`src/warp2protobuf/core/token_pool.py`) -/

/-- `TokenPriority` enum.  Selection iterates ANONYMOUS, SHARED, PERSONAL. -/
inductive TokenPriority where
  | ANONYMOUS
  | SHARED
  | PERSONAL
deriving DecidableEq, Repr

/-- `TokenInfo` dataclass.  Timestamps are `Int` seconds; `last_jwt = ""`
plays the role of Python's falsy empty string. -/
structure TokenInfo where
  refresh_token : String
  priority : TokenPriority
  name : String := ""
  last_used : Int := 0
  failure_count : Nat := 0
  is_active : Bool := true
  last_jwt : String := ""
  last_jwt_expiry : Int := 0
deriving DecidableEq, Repr

instance : Inhabited TokenInfo :=
  ⟨{ refresh_token := "", priority := TokenPriority.ANONYMOUS }⟩

/-- The two per-priority cursor dictionaries (`_current_index`,
`_last_used_index`), one `Nat` per priority. -/
structure RRIndex where
  anonymous : Nat := 0
  shared : Nat := 0
  personal : Nat := 0
deriving DecidableEq, Repr

def RRIndex.get (r : RRIndex) : TokenPriority → Nat
  | TokenPriority.ANONYMOUS => r.anonymous
  | TokenPriority.SHARED => r.shared
  | TokenPriority.PERSONAL => r.personal

def RRIndex.set (r : RRIndex) : TokenPriority → Nat → RRIndex
  | TokenPriority.ANONYMOUS, n => { r with anonymous := n }
  | TokenPriority.SHARED, n => { r with shared := n }
  | TokenPriority.PERSONAL, n => { r with personal := n }

/-- `TokenPool` state: the record list, both cursor dictionaries and the
failed set (`_failed_tokens`, modelled as a list with set operations;
`_max_failures` is the literal 3). -/
structure TokenPool where
  tokens : List TokenInfo := []
  current_index : RRIndex := {}
  last_used_index : RRIndex := {}
  failed_tokens : List String := []
deriving DecidableEq, Repr

def max_failures : Nat := 3

/-- The selectability filter used by `_get_token_by_priority` and
`get_next_token_excluding`: same priority, active, not in the failed set. -/
def selectable (failed : List String) (prio : TokenPriority) (t : TokenInfo) : Bool :=
  t.priority = prio && t.is_active && !(failed.contains t.refresh_token)

/-- `TokenPool._get_token_by_priority`: round-robin over the currently
selectable records of one priority, advancing `_current_index`.  Returns
the index (into `tokens`) of the chosen record. -/
def get_token_by_priority (p : TokenPool) (prio : TokenPriority) :
    Option (Nat × TokenInfo) × TokenPool :=
  let pts := p.tokens.enum.filter (fun it => selectable p.failed_tokens prio it.2)
  if pts = [] then (none, p)
  else
    let cur := p.current_index.get prio
    let chosen := pts.getD (cur % pts.length) (0, default)
    (some chosen,
     { p with current_index := p.current_index.set prio ((cur + 1) % pts.length) })

/-- `TokenPool.get_next_token`: try ANONYMOUS, SHARED, PERSONAL in order;
on a hit stamp `last_used := now` on the chosen record.  Returns the index
and the stamped record. -/
def get_next_token (p : TokenPool) (now : Int) :
    Option (Nat × TokenInfo) × TokenPool :=
  let res :=
    match get_token_by_priority p TokenPriority.ANONYMOUS with
    | (some c, q) => (some c, q)
    | (none, q) =>
      match get_token_by_priority q TokenPriority.SHARED with
      | (some c, q') => (some c, q')
      | (none, q') => get_token_by_priority q' TokenPriority.PERSONAL
  match res with
  | (none, q) => (none, q)
  | (some (i, t), q) =>
    let t' := { t with last_used := now }
    (some (i, t'), { q with tokens := q.tokens.set i t' })

/-- One priority class of `TokenPool.get_next_token_excluding` (lines
262-283): the candidate list additionally drops every record whose
`refresh_token` equals the excluded token, and the cursor used is
`_last_used_index`. -/
def pick_excluding (q : TokenPool) (exclude : Option String) (now : Int)
    (prio : TokenPriority) : Option (Nat × TokenInfo) × TokenPool :=
  let pts := q.tokens.enum.filter (fun it =>
    selectable q.failed_tokens prio it.2 &&
      (exclude = none ∨ some it.2.refresh_token ≠ exclude))
  if pts = [] then (none, q)
  else
    let idx := q.last_used_index.get prio % pts.length
    let chosen := pts.getD idx (0, default)
    let q' := { q with last_used_index :=
      q.last_used_index.set prio ((idx + 1) % pts.length) }
    let t' := { chosen.2 with last_used := now }
    (some (chosen.1, t'), { q' with tokens := q'.tokens.set chosen.1 t' })

/-- `TokenPool.get_next_token_excluding` (lines 246-286): try each
priority class in order with `pick_excluding`. -/
def get_next_token_excluding (p : TokenPool) (exclude : Option String)
    (now : Int) : Option (Nat × TokenInfo) × TokenPool :=
  match pick_excluding p exclude now TokenPriority.ANONYMOUS with
  | (some r, q) => (some r, q)
  | (none, q) =>
    match pick_excluding q exclude now TokenPriority.SHARED with
    | (some r, q') => (some r, q')
    | (none, q') => pick_excluding q' exclude now TokenPriority.PERSONAL

/-- `TokenPool.get_last_used_token`: record with the greatest
`last_used > 0`; ties keep the earlier record. -/
def get_last_used_token (p : TokenPool) : Option TokenInfo :=
  p.tokens.foldl
    (fun acc t =>
      if t.last_used > 0 then
        match acc with
        | none => some t
        | some m => if t.last_used > m.last_used then some t else acc
      else acc)
    none

/-- `TokenPool.mark_token_failed` (lines 288-298), applied to the record at
index `i`: increment `failure_count`; at `_max_failures` deactivate and add
to the failed set. -/
def mark_token_failed (p : TokenPool) (i : Nat) : TokenPool :=
  let t := p.tokens.getD i default
  let fc := t.failure_count + 1
  if fc ≥ max_failures then
    let t' := { t with failure_count := fc, is_active := false }
    { p with
      tokens := p.tokens.set i t'
      failed_tokens :=
        if p.failed_tokens.contains t.refresh_token then p.failed_tokens
        else t.refresh_token :: p.failed_tokens }
  else
    { p with tokens := p.tokens.set i { t with failure_count := fc } }

/-- `TokenPool.mark_token_success` (lines 300-309), applied to the record
at index `i`: zero `failure_count`, drop the refresh token from the failed
set, and (when `jwt` is non-empty) cache the credential and its expiry.
`is_active` is not touched. -/
def mark_token_success (p : TokenPool) (i : Nat) (jwt : String)
    (jwt_expiry : Int) : TokenPool :=
  let t := p.tokens.getD i default
  let t' :=
    if jwt ≠ "" then
      { t with failure_count := 0, last_jwt := jwt, last_jwt_expiry := jwt_expiry }
    else
      { t with failure_count := 0 }
  { p with
    tokens := p.tokens.set i t'
    failed_tokens := p.failed_tokens.filter (fun s => s ≠ t.refresh_token) }

/-- One step of `TokenPool.recover_failed_tokens` (lines 394-415): walk the
record list; a record that is inactive with `failure_count ≥ _max_failures`
is reset (count zeroed, reactivated, removed from the failed set) and
counted. -/
def recover_aux : List TokenInfo → List String → List TokenInfo × List String × Nat
  | [], failed => ([], failed, 0)
  | t :: ts, failed =>
    if !t.is_active && t.failure_count ≥ max_failures then
      let t' := { t with failure_count := 0, is_active := true }
      let failed' := failed.filter (fun s => s ≠ t.refresh_token)
      let rest := recover_aux ts failed'
      (t' :: rest.1, rest.2.1, rest.2.2 + 1)
    else
      let rest := recover_aux ts failed
      (t :: rest.1, rest.2.1, rest.2.2)

/-- `TokenPool.recover_failed_tokens`: returns the updated pool and the
number of resurrected records. -/
def recover_failed_tokens (p : TokenPool) : TokenPool × Nat :=
  let r := recover_aux p.tokens p.failed_tokens
  ({ p with tokens := r.1, failed_tokens := r.2.1 }, r.2.2)

/-- `TokenPool._load_personal_tokens` (lines 106-126) restricted to its
two environment inputs.  The single-token branch requires the raw value to
be truthy, its strip to be truthy, and the *raw* value to differ from the
placeholder; it appends the stripped value.  The comma-separated branch
appends each stripped piece that is non-empty and not already present. -/
def load_personal_tokens (warp_refresh_token : Option String)
    (warp_personal_tokens : Option String) : List String :=
  let tokens : List String :=
    match warp_refresh_token with
    | none => []
    | some s =>
      if s ≠ "" ∧ (pyStrip s.toList) ≠ [] ∧ s ≠ "your_warp_refresh_token_here" then
        [⟨pyStrip s.toList⟩]
      else []
  match warp_personal_tokens with
  | none => tokens
  | some ps =>
    (ps.split (· = ',')).foldl
      (fun acc piece =>
        let t : String := ⟨pyStrip piece.toList⟩
        if t ≠ "" ∧ !(acc.contains t) then acc ++ [t] else acc)
      tokens

/-! ### Decoded SSE events (`ResponseEvent` value trees)

`protobuf_to_dict` lives in `core/protobuf_utils.py`, outside the core
sources; the controller only consumes the fields below, after the
snake/camel-tolerant `_get` accessor has been applied, so the decoded tree
is modelled as this structure and the decoder itself as an oracle. -/

structure AgentOutputD where
  text : String := ""
deriving DecidableEq, Repr

structure MessageD where
  agent_output : Option AgentOutputD := none
deriving DecidableEq, Repr

structure AppendToMessageContentD where
  message : Option MessageD := none
deriving DecidableEq, Repr

structure AddMessagesToTaskD where
  messages : List MessageD := []
  task_id : Option String := none
deriving DecidableEq, Repr

structure ActionD where
  create_task : Bool := false
  append_to_message_content : Option AppendToMessageContentD := none
  add_messages_to_task : Option AddMessagesToTaskD := none
  tool_call : Bool := false
  tool_response : Bool := false
deriving DecidableEq, Repr

structure InitD where
  conversation_id : Option String := none
  task_id : Option String := none
deriving DecidableEq, Repr

structure EventData where
  init : Option InitD := none
  client_actions : Option (List ActionD) := none
  finished : Bool := false
deriving DecidableEq, Repr

/-- `_get_event_type` (`api_client.py` lines 32-61). -/
def get_event_type (e : EventData) : String :=
  if e.init.isSome then "INITIALIZATION"
  else
    match e.client_actions with
    | some actions =>
      if actions = [] then "CLIENT_ACTIONS_EMPTY"
      else
        let actionTypes := actions.map (fun a =>
          if a.create_task then "CREATE_TASK"
          else if a.append_to_message_content.isSome then "APPEND_CONTENT"
          else if a.add_messages_to_task.isSome then "ADD_MESSAGE"
          else if a.tool_call then "TOOL_CALL"
          else if a.tool_response then "TOOL_RESPONSE"
          else "UNKNOWN_ACTION")
        "CLIENT_ACTIONS(" ++ String.intercalate ", " actionTypes ++ ")"
    | none => if e.finished then "FINISHED" else "UNKNOWN_EVENT"

/-- Per-request SSE accumulator: `conversation_id`, `task_id`, the text
fragments later joined into `full_response`, the event list
(`all_events` / `parsed_events` entries are number, type, data), the event
counter, and the pending `current_data` chunk. -/
structure SSEState where
  conversation_id : Option String := none
  task_id : Option String := none
  complete_response : List String := []
  events : List (Nat × String × EventData) := []
  event_count : Nat := 0
  current_data : List Char := []
deriving DecidableEq, Repr

/-- Everything the SSE loop returns to the caller — all of the state
except the pending undecoded chunk. -/
def SSEState.outputs (st : SSEState) :
    Option String × Option String × List String ×
      List (Nat × String × EventData) × Nat :=
  (st.conversation_id, st.task_id, st.complete_response, st.events,
   st.event_count)

/-- Text / task-id extraction from one action, common to both modes
(`api_client.py` lines 315-336 and 620-641): an
`append_to_message_content` contributes `message.agent_output.text` when
non-empty; an `add_messages_to_task` first updates `task_id` and then
contributes each message's `agent_output.text` when present and
non-empty. -/
def processAction (a : ActionD) (st : SSEState) : SSEState :=
  let st1 :=
    match a.append_to_message_content with
    | some ap =>
      let message := ap.message.getD {}
      let agent_output := message.agent_output.getD {}
      if agent_output.text ≠ "" then
        { st with complete_response := st.complete_response ++ [agent_output.text] }
      else st
    | none => st
  match a.add_messages_to_task with
  | some am =>
    let st2 := { st1 with task_id := am.task_id <|> st1.task_id }
    am.messages.foldl
      (fun s msg =>
        match msg.agent_output with
        | some ao =>
          if ao.text ≠ "" then
            { s with complete_response := s.complete_response ++ [ao.text] }
          else s
        | none => s)
      st2
  | none => st1

/-- Blank-line flush in `send_protobuf_to_warp_api` (lines 281-336):
decode the chunk, skip silently on either decode failure, bump the
counter, record the event when `show_all_events`, and route.  In this
mode the whole action-extraction block is nested inside the
`if "init" in event_data` branch. -/
def flush1 (decodeEvent : List Nat → Option EventData) (showAll : Bool)
    (st0 : SSEState) : SSEState :=
  let raw := parse_payload_bytes st0.current_data
  let st := { st0 with current_data := [] }
  match raw with
  | none => st
  | some bs =>
    match decodeEvent bs with
    | none => st
    | some e =>
      let st := { st with event_count := st.event_count + 1 }
      let st :=
        if showAll then
          { st with events := st.events ++ [(st.event_count, get_event_type e, e)] }
        else st
      match e.init with
      | some ini =>
        let st := { st with
          conversation_id := ini.conversation_id <|> st.conversation_id
          task_id := ini.task_id <|> st.task_id }
        match e.client_actions with
        | some actions => actions.foldl (fun s a => processAction a s) st
        | none => st
      | none => st

/-- Blank-line flush in `send_protobuf_to_warp_api_parsed` (lines
590-641): the parsed event is always recorded and the action extraction
runs whether or not the event carried `init`. -/
def flush2 (decodeEvent : List Nat → Option EventData) (st0 : SSEState) :
    SSEState :=
  let raw := parse_payload_bytes2 st0.current_data
  let st := { st0 with current_data := [] }
  match raw with
  | none => st
  | some bs =>
    match decodeEvent bs with
    | none => st
    | some e =>
      let st := { st with event_count := st.event_count + 1 }
      let st :=
        { st with events := st.events ++ [(st.event_count, get_event_type e, e)] }
      let st :=
        match e.init with
        | some ini =>
          { st with
            conversation_id := ini.conversation_id <|> st.conversation_id
            task_id := ini.task_id <|> st.task_id }
        | none => st
      match e.client_actions with
      | some actions => actions.foldl (fun s a => processAction a s) st
      | none => st

/-- The line loop shared by both modes (lines 270-281 and 579-590): a
`data:` line with a non-empty stripped payload is either the `[DONE]`
sentinel (stop, returning the state as is — the pending chunk is never
flushed) or is appended to `current_data`; a blank line with a pending
chunk flushes it; anything else is ignored.  Reaching the end of the
line list likewise returns the state without flushing. -/
def sse_loop (flush : SSEState → SSEState) (st : SSEState) :
    List (List Char) → SSEState
  | [] => st
  | line :: rest =>
    if line.take 5 = "data:".toList then
      let payload := pyStrip (line.drop 5)
      if payload = [] then sse_loop flush st rest
      else if payload = "[DONE]".toList then st
      else sse_loop flush { st with current_data := st.current_data ++ payload } rest
    else if pyStrip line = [] ∧ st.current_data ≠ [] then
      sse_loop flush (flush st) rest
    else sse_loop flush st rest

/-- SSE processing of `send_protobuf_to_warp_api` on a 200 response. -/
def process_sse_lines (decodeEvent : List Nat → Option EventData)
    (showAll : Bool) (lines : List (List Char)) : SSEState :=
  sse_loop (flush1 decodeEvent showAll) {} lines

/-- SSE processing of `send_protobuf_to_warp_api_parsed` on a 200
response. -/
def process_sse_lines_parsed (decodeEvent : List Nat → Option EventData)
    (lines : List (List Char)) : SSEState :=
  sse_loop (flush2 decodeEvent) {} lines

/-! ### Retry controller (`send_protobuf_to_warp_api` and
`send_protobuf_to_warp_api_parsed`, `src/warp2protobuf/warp/api_client.py`)

The HTTP transport and the two credential operations living in
`core/auth.py` (outside `src/`) are oracles.  The bearer value placed in
the Authorization header does not influence any modelled observable: the
upstream's reaction is already the oracle `respond`. -/

/-- One upstream SSE POST transaction's answer: status, error body (read
on non-200) and the SSE line stream (on 200). -/
structure UpResponse where
  status : Nat
  body : List Char := []
  lines : List (List Char) := []

/-- External world of one request. `respond n` is the n-th upstream SSE
POST; `refresh_result n` the n-th `refresh_jwt_token_with_token_info`
call (`none` = refresh failed); `anon_result` the outcome of
`acquire_anonymous_access_token` (access credential, minted refresh
token, expiry; `none` = failure or exception); `env_jwt` is
`get_valid_jwt()`; `decodeEvent` is `protobuf_to_dict` on
`warp.multi_agent.v1.ResponseEvent`. -/
structure Env where
  respond : Nat → UpResponse
  refresh_result : Nat → Option (String × Int)
  env_jwt : String
  anon_result : Option (String × String × Int)
  decodeEvent : List Nat → Option EventData
  now : Int

/-- Return value of `send_protobuf_to_warp_api`: the success triple
(lines 347-352) or an error-return site (status and body as logged into
the error string). -/
inductive ReqResult1 where
  | ok (text : String) (conversation_id task_id : Option String)
  | httpError (status : Nat) (body : List Char)
deriving DecidableEq

def ReqResult1.isOk : ReqResult1 → Bool
  | .ok .. => true
  | .httpError .. => false

/-- Return value of `send_protobuf_to_warp_api_parsed`: the success
4-tuple (line 658) or an error return. -/
inductive ReqResult2 where
  | ok (text : String) (conversation_id task_id : Option String)
       (events : List (Nat × String × EventData))
  | httpError (status : Nat) (body : List Char)
deriving DecidableEq

def ReqResult2.isOk : ReqResult2 → Bool
  | .ok .. => true
  | .httpError .. => false

/-- Python's `needle in haystack` substring test. -/
def listContainsSub (needle hay : List Char) : Bool :=
  (List.range (hay.length + 1)).any
    (fun k => (hay.drop k).take needle.length = needle)

/-- The quota-exhaustion body test at lines 145-147 / 447-449. -/
def isQuotaBody (body : List Char) : Bool :=
  listContainsSub "No remaining quota".toList body ||
    listContainsSub "No AI requests remaining".toList body

/-- The cached-credential guard at lines 99 and 401:
`current_token_info.last_jwt and
 current_token_info.last_jwt_expiry > time.time() + 120`. -/
def usesCachedJwt (t : TokenInfo) (now : Int) : Bool :=
  decide (t.last_jwt ≠ "") && decide (t.last_jwt_expiry > now + 120)

/-- Modelled from the spec: `refresh_jwt_token_with_token_info` from
`core/auth.py`, which is not under `src/`.  Spec section 4.2(a): redeem
the record's refresh token at the identity service; on success the access
credential and its absolute expiry are produced and written back onto the
record (section 9, credential caching); on failure the caller receives
nothing.  The record at index `i` is the one whose `TokenInfo` the caller
passes in the source. -/
def refresh_token_info (env : Env) (callIdx : Nat) (p : TokenPool) (i : Nat) :
    Option String × TokenPool :=
  match env.refresh_result callIdx with
  | some (jwt, expiry) =>
    let t := p.tokens.getD i default
    (some jwt,
     { p with tokens :=
        p.tokens.set i { t with last_jwt := jwt, last_jwt_expiry := expiry } })
  | none => (none, p)

/-- Modelled from the spec: `acquire_anonymous_access_token` from
`core/auth.py`, not under `src/`.  Spec section 4.2(b): on success a new
anonymous identity is minted, its refresh token is added to the store
with priority Anonymous and the access credential cached on the new
record, and the credential is returned; on vendor rate limit or any other
failure nothing is returned.  Adding is idempotent on the refresh token
(`_add_token_internal`). -/
def acquire_anonymous (env : Env) (p : TokenPool) :
    Option String × TokenPool :=
  match env.anon_result with
  | some (jwt, newRefresh, expiry) =>
    if p.tokens.any (fun t => t.refresh_token = newRefresh) then (some jwt, p)
    else
      (some jwt,
       { p with tokens := p.tokens ++
          [{ refresh_token := newRefresh, priority := TokenPriority.ANONYMOUS,
             last_jwt := jwt, last_jwt_expiry := expiry }] })
  | none => (none, p)

/-- Initial selection and credential decision (lines 93-119 and 395-421,
identical in both modes): pick from the pool; use the cached credential
when the guard holds, otherwise refresh, falling back to the environment
JWT when the refresh fails; an empty pool falls back to the environment
JWT with no current refresh token.  Returns the bearer, the tracked
`current_token_refresh`, the pool, and how many refresh calls were
consumed. -/
def initial_credential (env : Env) (p0 : TokenPool) :
    String × Option String × TokenPool × Nat :=
  match get_next_token p0 env.now with
  | (some (i, ti), p1) =>
    if usesCachedJwt ti env.now then
      (ti.last_jwt, some ti.refresh_token, p1, 0)
    else
      match refresh_token_info env 0 p1 i with
      | (some jwt, p2) => (jwt, some ti.refresh_token, p2, 1)
      | (none, p2) => (env.env_jwt, some ti.refresh_token, p2, 1)
  | (none, p1) => (env.env_jwt, none, p1, 0)

/-- The `current_token_refresh is None` repair in the 429/500 branches
(lines 157-166 etc.): fall back to the most recently used record. -/
def current_or_last_used (p : TokenPool) (cur : Option String) : Option String :=
  match cur with
  | some c => some c
  | none => (get_last_used_token p).map (fun t => t.refresh_token)

/-- `send_protobuf_to_warp_api`, attempt 1 (the loop body after a
`continue`): every non-200 classification branch requires `attempt == 0`,
so the second response is either drained or returned as the final error. -/
def second_attempt1 (env : Env) (showAll : Bool) (p : TokenPool) :
    ReqResult1 × TokenPool × Nat :=
  let r := env.respond 1
  if r.status = 200 then
    let st := process_sse_lines env.decodeEvent showAll r.lines
    let full := String.join st.complete_response
    if full ≠ "" then (ReqResult1.ok full st.conversation_id st.task_id, p, 2)
    else
      (ReqResult1.ok "Warning: No response content received"
        st.conversation_id st.task_id, p, 2)
  else (ReqResult1.httpError r.status r.body, p, 2)

/-- `send_protobuf_to_warp_api` (lines 64-365): returns the Python return
value, the final pool, and the number of upstream SSE POST transactions.
The `for attempt in range(2)` loop is unrolled; each `continue` becomes a
call to `second_attempt1`. -/
def run_request (env : Env) (showAll : Bool) (p0 : TokenPool) :
    ReqResult1 × TokenPool × Nat :=
  let sel := initial_credential env p0
  let cur0 := sel.2.1
  let p2 := sel.2.2.1
  let rIdx := sel.2.2.2
  let r0 := env.respond 0
  if r0.status = 200 then
    let st := process_sse_lines env.decodeEvent showAll r0.lines
    let full := String.join st.complete_response
    if full ≠ "" then (ReqResult1.ok full st.conversation_id st.task_id, p2, 1)
    else
      (ReqResult1.ok "Warning: No response content received"
        st.conversation_id st.task_id, p2, 1)
  else if r0.status = 429 ∧ isQuotaBody r0.body then
    let cur := current_or_last_used p2 cur0
    match get_next_token_excluding p2 cur env.now with
    | (none, p3) =>
      match acquire_anonymous env p3 with
      | (some _, p4) => second_attempt1 env showAll p4
      | (none, p4) => (ReqResult1.httpError 429 r0.body, p4, 1)
    | (some (j, tj), p3) =>
      if tj.last_jwt ≠ "" then second_attempt1 env showAll p3
      else
        match refresh_token_info env rIdx p3 j with
        | (some _, p4) => second_attempt1 env showAll p4
        | (none, p4) => (ReqResult1.httpError 429 r0.body, p4, 1)
  else if r0.status = 500 then
    let cur := current_or_last_used p2 cur0
    match get_next_token_excluding p2 cur env.now with
    | (some (j, _), p3) =>
      match refresh_token_info env rIdx p3 j with
      | (some _, p4) => second_attempt1 env showAll p4
      | (none, p4) => (ReqResult1.httpError 500 r0.body, p4, 1)
    | (none, p3) => (ReqResult1.httpError 500 r0.body, p3, 1)
  else (ReqResult1.httpError r0.status r0.body, p2, 1)

/-- `send_protobuf_to_warp_api_parsed`, attempt 1. -/
def second_attempt2 (env : Env) (p : TokenPool) :
    ReqResult2 × TokenPool × Nat :=
  let r := env.respond 1
  if r.status = 200 then
    let st := process_sse_lines_parsed env.decodeEvent r.lines
    (ReqResult2.ok (String.join st.complete_response) st.conversation_id
      st.task_id st.events, p, 2)
  else (ReqResult2.httpError r.status r.body, p, 2)

/-- `send_protobuf_to_warp_api_parsed` (lines 368-671).  Identical control
flow, except: the success return always carries the joined text plus the
parsed event list, and in the quota branch a failed rotation refresh
falls through to one more anonymous-token attempt (lines 508-513) before
giving up. -/
def run_request_parsed (env : Env) (p0 : TokenPool) :
    ReqResult2 × TokenPool × Nat :=
  let sel := initial_credential env p0
  let cur0 := sel.2.1
  let p2 := sel.2.2.1
  let rIdx := sel.2.2.2
  let r0 := env.respond 0
  if r0.status = 200 then
    let st := process_sse_lines_parsed env.decodeEvent r0.lines
    (ReqResult2.ok (String.join st.complete_response) st.conversation_id
      st.task_id st.events, p2, 1)
  else if r0.status = 429 ∧ isQuotaBody r0.body then
    let cur := current_or_last_used p2 cur0
    match get_next_token_excluding p2 cur env.now with
    | (none, p3) =>
      match acquire_anonymous env p3 with
      | (some _, p4) => second_attempt2 env p4
      | (none, p4) => (ReqResult2.httpError 429 r0.body, p4, 1)
    | (some (j, tj), p3) =>
      if tj.last_jwt ≠ "" then second_attempt2 env p3
      else
        match refresh_token_info env rIdx p3 j with
        | (some _, p4) => second_attempt2 env p4
        | (none, p4) =>
          match acquire_anonymous env p4 with
          | (some _, p5) => second_attempt2 env p5
          | (none, p5) => (ReqResult2.httpError 429 r0.body, p5, 1)
  else if r0.status = 500 then
    let cur := current_or_last_used p2 cur0
    match get_next_token_excluding p2 cur env.now with
    | (some (j, _), p3) =>
      match refresh_token_info env rIdx p3 j with
      | (some _, p4) => second_attempt2 env p4
      | (none, p4) => (ReqResult2.httpError 500 r0.body, p4, 1)
    | (none, p3) => (ReqResult2.httpError 500 r0.body, p3, 1)
  else (ReqResult2.httpError r0.status r0.body, p2, 1)

/-! ### Derived definitions and fixtures used by the verification -/

/-- The per-record transformation of `recover_failed_tokens`. -/
def recoverStep (t : TokenInfo) : TokenInfo :=
  if !t.is_active && decide (t.failure_count ≥ max_failures) then
    { t with failure_count := 0, is_active := true }
  else t

/-- Both failure bookkeeping fields of every pre-existing record, and the
failed set, are untouched between two pool states. -/
def preserves_counts (p p' : TokenPool) : Prop :=
  p'.failed_tokens = p.failed_tokens ∧
  ∀ i, i < p.tokens.length →
    i < p'.tokens.length ∧
    (p'.tokens.getD i default).failure_count =
      (p.tokens.getD i default).failure_count ∧
    (p'.tokens.getD i default).is_active = (p.tokens.getD i default).is_active

/-- Fixture: upstream immediately answers 200 with an empty SSE stream;
all credential oracles fail (they are never consulted). -/
def env200 : Env :=
  { respond := fun _ => { status := 200 },
    refresh_result := fun _ => none,
    env_jwt := "ENVJWT",
    anon_result := none,
    decodeEvent := fun _ => none,
    now := 0 }

/-- Fixture: one anonymous identity with one prior failure and a cached
credential valid far beyond the 120 s margin. -/
def poolFc1 : TokenPool :=
  { tokens := [{ refresh_token := "A", priority := TokenPriority.ANONYMOUS,
                 failure_count := 1, last_jwt := "J", last_jwt_expiry := 1000 }] }

/-- Fixture for scenario S5: upstream always answers 500. -/
def env500 : Env :=
  { respond := fun _ => { status := 500, body := "Internal Server Error".toList },
    refresh_result := fun _ => none,
    env_jwt := "ENVJWT",
    anon_result := none,
    decodeEvent := fun _ => none,
    now := 0 }

/-- Fixture for scenario S5: a single Personal identity with a valid
cached credential and no prior failures. -/
def poolPersonal : TokenPool :=
  { tokens := [{ refresh_token := "P", priority := TokenPriority.PERSONAL,
                 last_jwt := "J", last_jwt_expiry := 1000 }] }

/-- A `data:` line whose stripped payload is not the `[DONE]` sentinel
(it may be empty): while such lines keep arriving, the accumulated chunk
is never flushed. -/
def pending_data_line (l : List Char) : Prop :=
  l.take 5 = "data:".toList ∧ pyStrip (l.drop 5) ≠ "[DONE]".toList

/-- A `data:` line carrying the `[DONE]` sentinel. -/
def done_line (l : List Char) : Prop :=
  l.take 5 = "data:".toList ∧ pyStrip (l.drop 5) = "[DONE]".toList

instance (l : List Char) : Decidable (pending_data_line l) := by
  unfold pending_data_line
  infer_instance

instance (l : List Char) : Decidable (done_line l) := by
  unfold done_line
  infer_instance

/-- Case analysis on a list in steps of three, mirroring the 3-byte
groups of the base64 encoder. -/
def list3Induction {α : Type} (P : List α → Prop) (h0 : P [])
    (h1 : ∀ a, P [a]) (h2 : ∀ a b, P [a, b])
    (h3 : ∀ a b c l, P l → P (a :: b :: c :: l)) : ∀ l, P l
  | [] => h0
  | [a] => h1 a
  | [a, b] => h2 a b
  | a :: b :: c :: l => h3 a b c l (list3Induction P h0 h1 h2 h3 l)

/-! ### Theorems -/

theorem second_attempt1_count (env : Env) (showAll : Bool) (p : TokenPool) :
    (second_attempt1 env showAll p).2.2 = 2 := by
  unfold second_attempt1
  dsimp only
  repeat' split
  all_goals simp

theorem second_attempt2_count (env : Env) (p : TokenPool) :
    (second_attempt2 env p).2.2 = 2 := by
  unfold second_attempt2
  dsimp only
  repeat' split
  all_goals simp

theorem run_request_count_le_two (env : Env) (showAll : Bool) (p : TokenPool) :
    (run_request env showAll p).2.2 ≤ 2 := by
  unfold run_request
  dsimp only
  repeat' split
  all_goals simp [second_attempt1_count]

theorem run_request_parsed_count_le_two (env : Env) (p : TokenPool) :
    (run_request_parsed env p).2.2 ≤ 2 := by
  unfold run_request_parsed
  dsimp only
  repeat' split
  all_goals simp [second_attempt2_count]

/-- C1: every invocation of the upstream request operation — whichever
classification branches (quota 429 rotation, 500 rotation, anonymous
provisioning) run before the second send, and whatever the oracles
answer — performs at most 2 upstream SSE POST transactions. -/
theorem c1_at_most_two_sse_transactions (env : Env) (showAll : Bool)
    (p : TokenPool) :
    (run_request env showAll p).2.2 ≤ 2 ∧
      (run_request_parsed env p).2.2 ≤ 2 :=
  ⟨run_request_count_le_two env showAll p, run_request_parsed_count_le_two env p⟩

/-- C4: when a cached access credential is present, it is used without a
refresh exactly when its expiry minus the current time is strictly
greater than 120 seconds; at exactly 120 seconds it is treated as not
usable, so the refresh path is taken. -/
theorem c4_cached_credential_boundary (t : TokenInfo) (now : Int)
    (hjwt : t.last_jwt ≠ "") :
    (usesCachedJwt t now = true ↔ t.last_jwt_expiry - now > 120) ∧
    (t.last_jwt_expiry - now = 120 → usesCachedJwt t now = false) := by
  unfold usesCachedJwt
  constructor
  · simp [hjwt]
    omega
  · intro h
    simp [hjwt]
    omega

/-- Concrete instance of `c4_cached_credential_boundary`. -/
theorem c4_witness :
    (usesCachedJwt
        { refresh_token := "r", priority := TokenPriority.PERSONAL,
          last_jwt := "jwt", last_jwt_expiry := 121 } 0 = true ↔
      (121 : Int) - 0 > 120) ∧
    ((121 : Int) - 0 = 120 →
      usesCachedJwt
        { refresh_token := "r", priority := TokenPriority.PERSONAL,
          last_jwt := "jwt", last_jwt_expiry := 121 } 0 = false) :=
  c4_cached_credential_boundary
    { refresh_token := "r", priority := TokenPriority.PERSONAL,
      last_jwt := "jwt", last_jwt_expiry := 121 } 0 (by decide)



theorem pick_excluding_none_pool (q : TokenPool) (e : Option String) (now : Int)
    (prio : TokenPriority) (q' : TokenPool)
    (h : pick_excluding q e now prio = (none, q')) : q' = q := by
  unfold pick_excluding at h
  dsimp only at h
  split at h
  · exact (Prod.mk.injEq _ _ _ _ ▸ h).2.symm ▸ rfl
  · simp at h

theorem pick_excluding_some_ne (q : TokenPool) (t : String) (now : Int)
    (prio : TokenPriority) (i : Nat) (tok : TokenInfo) (q' : TokenPool)
    (h : pick_excluding q (some t) now prio = (some (i, tok), q')) :
    tok.refresh_token ≠ t := by
  unfold pick_excluding at h
  dsimp only at h
  split at h
  · simp at h
  · rename_i hne
    rw [Prod.mk.injEq] at h
    obtain ⟨h1, _⟩ := h
    rw [Option.some.injEq, Prod.mk.injEq] at h1
    obtain ⟨_, h2⟩ := h1
    set pts := q.tokens.enum.filter (fun it =>
      selectable q.failed_tokens prio it.2 &&
        decide (some t = none ∨ some it.2.refresh_token ≠ some t)) with hpts
    have hlen : 0 < pts.length := List.length_pos.mpr hne
    have hidx : q.last_used_index.get prio % pts.length < pts.length :=
      Nat.mod_lt _ hlen
    have hchosen : pts.getD (q.last_used_index.get prio % pts.length) (0, default) ∈ pts := by
      rw [List.getD_eq_getElem _ _ hidx]
      exact List.getElem_mem hidx
    have hpred := List.of_mem_filter hchosen
    simp only [Bool.and_eq_true, decide_eq_true_eq] at hpred
    have hrt : (pts.getD (q.last_used_index.get prio % pts.length) (0, default)).2.refresh_token
        = tok.refresh_token := by
      rw [← h2]
    rcases hpred.2 with hx | hx
    · simp at hx
    · intro hh
      exact hx (by rw [hrt, hh])

theorem pick_excluding_none_iff (q : TokenPool) (t : String) (now : Int)
    (prio : TokenPriority) :
    (pick_excluding q (some t) now prio).1 = none ↔
      ∀ tok ∈ q.tokens, ¬(tok.priority = prio ∧ tok.is_active = true ∧
        tok.refresh_token ∉ q.failed_tokens ∧
        tok.refresh_token ≠ t) := by
  unfold pick_excluding
  dsimp only
  constructor
  · intro h
    split at h
    · rename_i hnil
      rw [List.filter_eq_nil_iff] at hnil
      intro tok htok hcontra
      obtain ⟨i, hi, hget⟩ := List.mem_iff_getElem.mp htok
      have hmem : (i, tok) ∈ q.tokens.enum := by
        rw [List.mk_mem_enum_iff_getElem?]
        rw [List.getElem?_eq_getElem hi, hget]
      have := hnil _ hmem
      apply this
      simp only [Bool.and_eq_true, decide_eq_true_eq]
      refine ⟨?_, ?_⟩
      · unfold selectable
        simp only [Bool.and_eq_true, decide_eq_true_eq]
        exact ⟨⟨hcontra.1, hcontra.2.1⟩, by simpa using hcontra.2.2.1⟩
      · right
        intro hx
        exact hcontra.2.2.2 (Option.some.injEq _ _ ▸ hx)
    · simp at h
  · intro hall
    split
    · rfl
    · rename_i hnonnil
      exfalso
      apply hnonnil
      rw [List.filter_eq_nil_iff]
      intro it hit
      have htok : it.2 ∈ q.tokens := by
        rw [List.mem_enum_iff_getElem?] at hit
        obtain ⟨hlt, heq⟩ := List.getElem?_eq_some.mp hit
        exact heq ▸ List.getElem_mem hlt
      have := hall it.2 htok
      simp only [Bool.and_eq_true, decide_eq_true_eq]
      intro hcontra
      apply this
      obtain ⟨hsel, hex⟩ := hcontra
      unfold selectable at hsel
      simp only [Bool.and_eq_true, decide_eq_true_eq] at hsel
      refine ⟨hsel.1.1, hsel.1.2, by simpa using hsel.2, ?_⟩
      rcases hex with hx | hx
      · simp at hx
      · intro hh
        exact hx (by rw [hh])

/-- C6: `get_next_token_excluding t` never returns the record whose
`refresh_token` equals `t`: a returned record's refresh token differs
from `t`, and the result is `none` exactly when no active, non-failed
record with a different refresh token exists in any priority class
(so a class containing only `t`'s record falls through to the next). -/
theorem c6_next_excluding_spec (p : TokenPool) (t : String) (now : Int) :
    (∀ i tok p', get_next_token_excluding p (some t) now = (some (i, tok), p') →
      tok.refresh_token ≠ t) ∧
    ((get_next_token_excluding p (some t) now).1 = none ↔
      ∀ tok ∈ p.tokens, ¬(tok.is_active = true ∧
        tok.refresh_token ∉ p.failed_tokens ∧ tok.refresh_token ≠ t)) := by
  have hclass : ∀ (q : TokenPool) (prio : TokenPriority) (r : Nat × TokenInfo)
      (q' : TokenPool), pick_excluding q (some t) now prio = (some r, q') →
      ¬∀ tok ∈ q.tokens, ¬(tok.is_active = true ∧
        tok.refresh_token ∉ q.failed_tokens ∧ tok.refresh_token ≠ t) := by
    intro q prio r q' hpick hall
    have : (pick_excluding q (some t) now prio).1 = none := by
      rw [pick_excluding_none_iff]
      intro tok htok hc
      exact hall tok htok ⟨hc.2.1, hc.2.2.1, hc.2.2.2⟩
    rw [hpick] at this
    simp at this
  constructor
  · intro i tok p' h
    unfold get_next_token_excluding at h
    split at h
    · rename_i r q hA
      simp only [Prod.mk.injEq, Option.some.injEq] at h
      exact pick_excluding_some_ne _ t now _ i tok p' (by rw [hA, h.1, h.2])
    · rename_i q hA
      split at h
      · rename_i r q2 hS
        simp only [Prod.mk.injEq, Option.some.injEq] at h
        exact pick_excluding_some_ne _ t now _ i tok p' (by rw [hS, h.1, h.2])
      · rename_i q2 hS
        exact pick_excluding_some_ne _ _ _ _ _ _ _ h
  · unfold get_next_token_excluding
    split
    · rename_i r q hA
      simp only [Prod.fst]
      constructor
      · intro hx
        simp at hx
      · intro hall
        exact absurd hall (hclass p TokenPriority.ANONYMOUS r q hA)
    · rename_i q hA
      have hq : q = p := pick_excluding_none_pool _ _ _ _ _ hA
      subst hq
      split
      · rename_i r q2 hS
        simp only [Prod.fst]
        constructor
        · intro hx
          simp at hx
        · intro hall
          exact absurd hall (hclass q TokenPriority.SHARED r q2 hS)
      · rename_i q2 hS
        have hq2 : q2 = q := pick_excluding_none_pool _ _ _ _ _ hS
        subst hq2
        rcases hP : pick_excluding q2 (some t) now TokenPriority.PERSONAL with ⟨oP, qP⟩
        cases oP with
        | some r =>
          simp only [Prod.fst]
          constructor
          · intro hx
            simp at hx
          · intro hall
            exact absurd hall (hclass q2 TokenPriority.PERSONAL r qP hP)
        | none =>
          simp only [Prod.fst]
          constructor
          · intro _ tok htok hc
            have hAiff := (pick_excluding_none_iff q2 t now TokenPriority.ANONYMOUS).mp
              (by rw [hA])
            have hSiff := (pick_excluding_none_iff q2 t now TokenPriority.SHARED).mp
              (by rw [hS])
            have hPiff := (pick_excluding_none_iff q2 t now TokenPriority.PERSONAL).mp
              (by rw [hP])
            cases hprio : tok.priority with
            | ANONYMOUS => exact hAiff tok htok ⟨hprio, hc.1, hc.2.1, hc.2.2⟩
            | SHARED => exact hSiff tok htok ⟨hprio, hc.1, hc.2.1, hc.2.2⟩
            | PERSONAL => exact hPiff tok htok ⟨hprio, hc.1, hc.2.1, hc.2.2⟩
          · intro _
            trivial

theorem recover_aux_tokens : ∀ (ts : List TokenInfo) (failed : List String),
    (recover_aux ts failed).1 = ts.map recoverStep := by
  intro ts
  induction ts with
  | nil => intro failed; rfl
  | cons t ts ih =>
    intro failed
    unfold recover_aux
    dsimp only
    split
    · rename_i hc
      simp [List.map_cons, recoverStep, hc, ih]
    · rename_i hc
      simp only [Bool.not_eq_true] at hc
      have hstep : recoverStep t = t := by
        unfold recoverStep
        rw [hc]
        simp
      simp [List.map_cons, hstep, ih]

theorem recover_aux_count : ∀ (ts : List TokenInfo) (failed : List String),
    (recover_aux ts failed).2.2 =
      ts.countP (fun t => !t.is_active && decide (t.failure_count ≥ max_failures)) := by
  intro ts
  induction ts with
  | nil => intro failed; rfl
  | cons t ts ih =>
    intro failed
    unfold recover_aux
    dsimp only
    split
    · rename_i hc
      simp [List.countP_cons, hc, ih]
    · rename_i hc
      simp only [Bool.not_eq_true] at hc
      rw [List.countP_cons]
      simp [hc, ih]

theorem recover_aux_failed_mem : ∀ (ts : List TokenInfo) (failed : List String)
    (x : String), x ∈ (recover_aux ts failed).2.1 ↔
      (x ∈ failed ∧ ∀ t ∈ ts,
        (!t.is_active && decide (t.failure_count ≥ max_failures)) = true →
          x ≠ t.refresh_token) := by
  intro ts
  induction ts with
  | nil =>
    intro failed x
    simp [recover_aux]
  | cons t ts ih =>
    intro failed x
    unfold recover_aux
    dsimp only
    split
    · rename_i hc
      rw [ih]
      simp only [List.mem_filter, List.mem_cons]
      constructor
      · rintro ⟨⟨hx, hne⟩, hall⟩
        simp only [decide_eq_true_eq] at hne
        refine ⟨hx, ?_⟩
        intro u hu hcond
        rcases hu with rfl | hu
        · exact hne
        · exact hall u hu hcond
      · rintro ⟨hx, hall⟩
        refine ⟨⟨hx, ?_⟩, ?_⟩
        · simp only [decide_eq_true_eq]
          exact hall t (Or.inl rfl) hc
        · intro u hu hcond
          exact hall u (Or.inr hu) hcond
    · rename_i hc
      rw [ih]
      constructor
      · rintro ⟨hx, hall⟩
        refine ⟨hx, ?_⟩
        intro u hu hcond
        rw [List.mem_cons] at hu
        rcases hu with rfl | hu
        · exact absurd hcond hc
        · exact hall u hu hcond
      · rintro ⟨hx, hall⟩
        refine ⟨hx, ?_⟩
        intro u hu hcond
        exact hall u (List.mem_cons_of_mem _ hu) hcond

theorem get_token_by_priority_none (p : TokenPool) (prio : TokenPriority)
    (q : TokenPool) (h : get_token_by_priority p prio = (none, q)) : q = p := by
  unfold get_token_by_priority at h
  dsimp only at h
  split at h
  · exact (Prod.mk.injEq _ _ _ _ ▸ h).2.symm ▸ rfl
  · simp at h

theorem get_token_by_priority_some (p : TokenPool) (prio : TokenPriority)
    (i : Nat) (t : TokenInfo) (q : TokenPool)
    (h : get_token_by_priority p prio = (some (i, t), q)) :
    p.tokens[i]? = some t ∧ t.is_active = true ∧ q.tokens = p.tokens := by
  unfold get_token_by_priority at h
  dsimp only at h
  split at h
  · simp at h
  · rename_i hne
    rw [Prod.mk.injEq, Option.some.injEq] at h
    obtain ⟨h1, h2⟩ := h
    set pts := p.tokens.enum.filter
      (fun it => selectable p.failed_tokens prio it.2) with hpts
    have hlen : 0 < pts.length := List.length_pos.mpr hne
    have hidx : p.current_index.get prio % pts.length < pts.length :=
      Nat.mod_lt _ hlen
    have hmem : pts.getD (p.current_index.get prio % pts.length) (0, default) ∈ pts := by
      rw [List.getD_eq_getElem _ _ hidx]
      exact List.getElem_mem hidx
    have hpred := List.of_mem_filter hmem
    have henum := List.mem_of_mem_filter hmem
    rw [List.mem_enum_iff_getElem?] at henum
    rw [h1] at henum hpred
    unfold selectable at hpred
    simp only [Bool.and_eq_true, decide_eq_true_eq] at hpred
    exact ⟨henum, hpred.1.2, by rw [← h2]⟩

theorem get_next_token_some (p : TokenPool) (now : Int) (j : Nat)
    (tok : TokenInfo) (q : TokenPool)
    (h : get_next_token p now = (some (j, tok), q)) :
    ∃ orig, p.tokens[j]? = some orig ∧ orig.is_active = true := by
  unfold get_next_token at h
  dsimp only at h
  split at h
  · simp at h
  · rename_i res i t qr hres
    rw [Prod.mk.injEq, Option.some.injEq, Prod.mk.injEq] at h
    obtain ⟨⟨hj, _⟩, _⟩ := h
    subst hj
    split at hres
    · rename_i r q1 hA
      rw [Prod.mk.injEq, Option.some.injEq] at hres
      obtain ⟨h1, _⟩ := hres
      subst h1
      obtain ⟨hg, ha, _⟩ := get_token_by_priority_some _ _ _ _ _ hA
      exact ⟨t, hg, ha⟩
    · rename_i q1 hA
      have hq1 : q1 = p := get_token_by_priority_none _ _ _ hA
      split at hres
      · rename_i r q2 hS
        rw [Prod.mk.injEq, Option.some.injEq] at hres
        obtain ⟨h1, _⟩ := hres
        subst h1
        obtain ⟨hg, ha, _⟩ := get_token_by_priority_some _ _ _ _ _ hS
        rw [hq1] at hg
        exact ⟨t, hg, ha⟩
      · rename_i q2 hS
        have hq2 : q2 = q1 := get_token_by_priority_none _ _ _ hS
        obtain ⟨hg, ha, _⟩ := get_token_by_priority_some _ _ _ _ _ hres
        rw [hq2, hq1] at hg
        exact ⟨t, hg, ha⟩

/-- C7 (amended): after `recover_failed_tokens`, every record that was
deactivated AND had `failure_count ≥ 3` (the deactivation threshold) has
`failure_count = 0`, is active, and is absent from the failed set, and
the returned integer counts exactly the records satisfying that guard. -/
theorem c7_amended_thm (p : TokenPool) (i : Nat) (hi : i < p.tokens.length)
    (hinact : (p.tokens.getD i default).is_active = false)
    (hfc : (p.tokens.getD i default).failure_count ≥ max_failures) :
    (((recover_failed_tokens p).1.tokens.getD i default).failure_count = 0 ∧
     ((recover_failed_tokens p).1.tokens.getD i default).is_active = true ∧
     ((recover_failed_tokens p).1.tokens.getD i default).refresh_token ∉
       (recover_failed_tokens p).1.failed_tokens) ∧
    (recover_failed_tokens p).2 =
      p.tokens.countP
        (fun t => !t.is_active && decide (t.failure_count ≥ max_failures)) := by
  unfold recover_failed_tokens
  dsimp only
  rw [recover_aux_tokens, recover_aux_count]
  have hmaplen : (p.tokens.map recoverStep).length = p.tokens.length := by simp
  have hgetd : (p.tokens.map recoverStep).getD i default
      = recoverStep (p.tokens.getD i default) := by
    rw [List.getD_eq_getElem _ _ (hmaplen ▸ hi), List.getD_eq_getElem _ _ hi]
    simp
  have hcond : (!(p.tokens.getD i default).is_active &&
      decide ((p.tokens.getD i default).failure_count ≥ max_failures)) = true := by
    simp only [Bool.and_eq_true, Bool.not_eq_true', decide_eq_true_eq]
    exact ⟨hinact, hfc⟩
  have hstep : recoverStep (p.tokens.getD i default) =
      { p.tokens.getD i default with failure_count := 0, is_active := true } := by
    unfold recoverStep
    rw [hcond]
    simp
  refine ⟨⟨?_, ?_, ?_⟩, rfl⟩
  · rw [hgetd, hstep]
  · rw [hgetd, hstep]
  · rw [hgetd, hstep]
    intro hmem
    rw [recover_aux_failed_mem] at hmem
    have hself := hmem.2 (p.tokens.getD i default)
      (by rw [List.getD_eq_getElem _ _ hi]; exact List.getElem_mem hi) hcond
    exact hself rfl

/-- Concrete instance of `c7_amended_thm`. -/
theorem c7_amended_witness :
    let p : TokenPool :=
      { tokens := [{ refresh_token := "A", priority := TokenPriority.ANONYMOUS,
                     failure_count := 3, is_active := false }],
        failed_tokens := ["A"] }
    (((recover_failed_tokens p).1.tokens.getD 0 default).failure_count = 0 ∧
     ((recover_failed_tokens p).1.tokens.getD 0 default).is_active = true ∧
     ((recover_failed_tokens p).1.tokens.getD 0 default).refresh_token ∉
       (recover_failed_tokens p).1.failed_tokens) ∧
    (recover_failed_tokens p).2 =
      p.tokens.countP
        (fun t => !t.is_active && decide (t.failure_count ≥ max_failures)) :=
  c7_amended_thm _ 0 (by decide) (by decide) (by decide)

/-- C10: `mark_token_success` never changes `is_active`: applied to a
deactivated record it zeroes `failure_count` and removes the record from
the failed set while leaving it inactive, so `get_next_token` never
selects it and a subsequent `recover_failed_tokens` leaves it untouched
(its `failure_count` is now below the threshold). -/
theorem c10_mark_success_keeps_inactive (p : TokenPool) (i : Nat) (jwt : String) (exp : Int)
    (hi : i < p.tokens.length)
    (hinact : (p.tokens.getD i default).is_active = false) :
    ((mark_token_success p i jwt exp).tokens.getD i default).is_active = false ∧
    ((mark_token_success p i jwt exp).tokens.getD i default).failure_count = 0 ∧
    ((mark_token_success p i jwt exp).tokens.getD i default).refresh_token ∉
      (mark_token_success p i jwt exp).failed_tokens ∧
    (∀ now j tok q,
      get_next_token (mark_token_success p i jwt exp) now = (some (j, tok), q) →
        j ≠ i) ∧
    (recover_failed_tokens (mark_token_success p i jwt exp)).1.tokens.getD i default
      = (mark_token_success p i jwt exp).tokens.getD i default := by
  have key : ∃ t', (mark_token_success p i jwt exp).tokens = p.tokens.set i t' ∧
      (mark_token_success p i jwt exp).failed_tokens =
        p.failed_tokens.filter
          (fun s => s ≠ (p.tokens.getD i default).refresh_token) ∧
      t'.is_active = (p.tokens.getD i default).is_active ∧
      t'.failure_count = 0 ∧
      t'.refresh_token = (p.tokens.getD i default).refresh_token := by
    unfold mark_token_success
    dsimp only
    split
    · exact ⟨_, rfl, rfl, rfl, rfl, rfl⟩
    · exact ⟨_, rfl, rfl, rfl, rfl, rfl⟩
  obtain ⟨t', htoks, hfailed, hact, hfc, hrt⟩ := key
  have hsetlen : i < (p.tokens.set i t').length := by simpa using hi
  have hgetd : (p.tokens.set i t').getD i default = t' := by
    rw [List.getD_eq_getElem _ _ hsetlen]
    exact List.getElem_set_self _
  have hstep : recoverStep t' = t' := by
    unfold recoverStep
    have hcond : (!t'.is_active && decide (t'.failure_count ≥ max_failures)) = false := by
      rw [hfc]
      simp [max_failures]
    rw [hcond]
    simp
  refine ⟨?_, ?_, ?_, ?_, ?_⟩
  · rw [htoks, hgetd, hact]
    exact hinact
  · rw [htoks, hgetd]
    exact hfc
  · rw [htoks, hgetd, hfailed, hrt]
    intro hmem
    have := List.of_mem_filter hmem
    simp at this
  · intro now j tok q hsel hji
    obtain ⟨orig, hg, hact2⟩ := get_next_token_some _ _ _ _ _ hsel
    rw [hji, htoks] at hg
    rw [List.getElem?_eq_getElem hsetlen, List.getElem_set_self _] at hg
    rw [Option.some.injEq] at hg
    rw [← hg] at hact2
    rw [hact, hinact] at hact2
    exact Bool.false_ne_true hact2
  · unfold recover_failed_tokens
    dsimp only
    rw [recover_aux_tokens, htoks, hgetd]
    have hlen2 : i < ((p.tokens.set i t').map recoverStep).length := by simpa using hi
    rw [List.getD_eq_getElem _ _ hlen2]
    rw [List.getElem_map]
    rw [List.getElem_set_self _]
    exact hstep

/-- Concrete instance of `c10_mark_success_keeps_inactive`. -/
theorem c10_witness :
    let p : TokenPool :=
      { tokens := [{ refresh_token := "A", priority := TokenPriority.ANONYMOUS,
                     failure_count := 3, is_active := false }],
        failed_tokens := ["A"] }
    ((mark_token_success p 0 "j" 50).tokens.getD 0 default).is_active = false ∧
    ((mark_token_success p 0 "j" 50).tokens.getD 0 default).failure_count = 0 ∧
    ((mark_token_success p 0 "j" 50).tokens.getD 0 default).refresh_token ∉
      (mark_token_success p 0 "j" 50).failed_tokens ∧
    (∀ now j tok q,
      get_next_token (mark_token_success p 0 "j" 50) now = (some (j, tok), q) →
        j ≠ 0) ∧
    (recover_failed_tokens (mark_token_success p 0 "j" 50)).1.tokens.getD 0 default
      = (mark_token_success p 0 "j" 50).tokens.getD 0 default :=
  c10_mark_success_keeps_inactive _ 0 "j" 50 (by decide) (by decide)

/-- Concrete instance of the selection part of the C6 theorem. -/
theorem c6_witness :
    ({ refresh_token := "P", priority := TokenPriority.PERSONAL, last_used := 10 }
      : TokenInfo).refresh_token ≠ "A" :=
  (c6_next_excluding_spec
    { tokens := [{ refresh_token := "A", priority := TokenPriority.ANONYMOUS },
                 { refresh_token := "P", priority := TokenPriority.PERSONAL }] }
    "A" 10).1 1
    { refresh_token := "P", priority := TokenPriority.PERSONAL, last_used := 10 }
    { tokens := [{ refresh_token := "A", priority := TokenPriority.ANONYMOUS },
                 { refresh_token := "P", priority := TokenPriority.PERSONAL,
                   last_used := 10 }] }
    (by decide)

/-- C7 counterexample: a record deactivated by three failures and then
handed to `mark_token_success` is inactive with `failure_count = 0`;
`recover_failed_tokens` does not resurrect it (its guard also requires
`failure_count ≥ 3`) and returns 0, refuting the claim that every
deactivated record is resurrected and counted. -/
theorem c7_counterexample :
    let p0 : TokenPool :=
      { tokens := [{ refresh_token := "A", priority := TokenPriority.ANONYMOUS }] }
    let pbad := mark_token_success
      (mark_token_failed (mark_token_failed (mark_token_failed p0 0) 0) 0) 0 "" 0
    (pbad.tokens.getD 0 default).is_active = false ∧
    ((recover_failed_tokens pbad).1.tokens.getD 0 default).is_active = false ∧
    (recover_failed_tokens pbad).2 = 0 := by
  decide

/-- C9 counterexample: the placeholder comparison uses the untrimmed
value, so a `WARP_REFRESH_TOKEN` of " your_warp_refresh_token_here"
(leading space) is accepted and the trimmed placeholder string is added,
while the claim says it is ignored. -/
theorem c9_counterexample :
    load_personal_tokens (some " your_warp_refresh_token_here") none =
      ["your_warp_refresh_token_here"] ∧
    (⟨pyStrip (" your_warp_refresh_token_here" : String).toList⟩ : String) =
      "your_warp_refresh_token_here" := by
  constructor
  · rfl
  · rfl

/-- C9 (amended): the `WARP_REFRESH_TOKEN` value is added (trimmed) iff
its trim is non-empty and the *raw, untrimmed* value differs from the
literal placeholder "your_warp_refresh_token_here". -/
theorem c9_amended_thm (s : String) :
    load_personal_tokens (some s) none =
      if pyStrip s.toList ≠ [] ∧ s ≠ "your_warp_refresh_token_here"
      then [(⟨pyStrip s.toList⟩ : String)] else [] := by
  rcases eq_or_ne s "" with rfl | hne
  · simp [load_personal_tokens, pyStrip]
  · unfold load_personal_tokens
    dsimp only
    have hiff : (s ≠ "" ∧ pyStrip s.toList ≠ [] ∧
        s ≠ "your_warp_refresh_token_here") ↔
        (pyStrip s.toList ≠ [] ∧ s ≠ "your_warp_refresh_token_here") := by
      constructor
      · rintro ⟨_, a, b⟩
        exact ⟨a, b⟩
      · rintro ⟨a, b⟩
        exact ⟨hne, a, b⟩
    rw [if_congr hiff rfl rfl]

theorem preserves_counts_refl (p : TokenPool) : preserves_counts p p :=
  ⟨rfl, fun _ hi => ⟨hi, rfl, rfl⟩⟩

theorem preserves_counts_trans {p q r : TokenPool}
    (h1 : preserves_counts p q) (h2 : preserves_counts q r) :
    preserves_counts p r := by
  refine ⟨h2.1.trans h1.1, fun i hi => ?_⟩
  obtain ⟨hlt1, hfc1, ha1⟩ := h1.2 i hi
  obtain ⟨hlt2, hfc2, ha2⟩ := h2.2 i hlt1
  exact ⟨hlt2, hfc2.trans hfc1, ha2.trans ha1⟩

theorem preserves_counts_set (p p' : TokenPool) (i : Nat) (t' : TokenInfo)
    (htoks : p'.tokens = p.tokens.set i t')
    (hfl : p'.failed_tokens = p.failed_tokens)
    (hfc : t'.failure_count = (p.tokens.getD i default).failure_count)
    (ha : t'.is_active = (p.tokens.getD i default).is_active) :
    preserves_counts p p' := by
  refine ⟨hfl, fun j hj => ?_⟩
  rw [htoks]
  refine ⟨by simpa using hj, ?_⟩
  rcases eq_or_ne j i with rfl | hne
  · rw [List.getD_eq_getElem _ _ (by simpa using hj),
      List.getD_eq_getElem _ _ hj]
    rw [List.getElem_set_self _]
    exact ⟨hfc.trans (by rw [List.getD_eq_getElem _ _ hj]),
      ha.trans (by rw [List.getD_eq_getElem _ _ hj])⟩
  · rw [List.getD_eq_getElem _ _ (by simpa using hj),
      List.getD_eq_getElem _ _ hj]
    rw [List.getElem_set_ne (by omega)]
    exact ⟨rfl, rfl⟩

theorem preserves_counts_append (p p' : TokenPool) (ts : List TokenInfo)
    (htoks : p'.tokens = p.tokens ++ ts)
    (hfl : p'.failed_tokens = p.failed_tokens) :
    preserves_counts p p' := by
  refine ⟨hfl, fun i hi => ?_⟩
  rw [htoks]
  refine ⟨by simp; omega, ?_⟩
  rw [List.getD_eq_getElem _ _ (by simp; omega), List.getD_eq_getElem _ _ hi]
  rw [List.getElem_append_left hi]
  exact ⟨rfl, rfl⟩

theorem get_token_by_priority_pool (p : TokenPool) (prio : TokenPriority) :
    (get_token_by_priority p prio).2.tokens = p.tokens ∧
    (get_token_by_priority p prio).2.failed_tokens = p.failed_tokens := by
  unfold get_token_by_priority
  dsimp only
  split
  · exact ⟨rfl, rfl⟩
  · exact ⟨rfl, rfl⟩

theorem get_next_token_preserves (p : TokenPool) (now : Int) :
    preserves_counts p (get_next_token p now).2 := by
  unfold get_next_token
  dsimp only
  split
  · rename_i q hres
    split at hres
    · simp at hres
    · rename_i q1 hA
      have hq1 : q1 = p := get_token_by_priority_none _ _ _ hA
      split at hres
      · simp at hres
      · rename_i q2 hS
        have hq2 : q2 = q1 := get_token_by_priority_none _ _ _ hS
        have hq : q = q2 := get_token_by_priority_none _ _ _ hres
        rw [hq, hq2, hq1]
        exact preserves_counts_refl p
  · rename_i res i t qr hres
    have hinfo : p.tokens[i]? = some t ∧ qr.tokens = p.tokens ∧
        qr.failed_tokens = p.failed_tokens := by
      split at hres
      · rename_i r q1 hA
        rw [Prod.mk.injEq, Option.some.injEq] at hres
        obtain ⟨h1, h2⟩ := hres
        subst h1
        obtain ⟨hg, _, ht⟩ := get_token_by_priority_some _ _ _ _ _ hA
        obtain ⟨ht', hf'⟩ := get_token_by_priority_pool p TokenPriority.ANONYMOUS
        rw [hA] at ht' hf'
        exact ⟨hg, by rw [← h2, ht'], by rw [← h2, hf']⟩
      · rename_i q1 hA
        have hq1 : q1 = p := get_token_by_priority_none _ _ _ hA
        split at hres
        · rename_i r q2 hS
          rw [Prod.mk.injEq, Option.some.injEq] at hres
          obtain ⟨h1, h2⟩ := hres
          subst h1
          obtain ⟨hg, _, _⟩ := get_token_by_priority_some _ _ _ _ _ hS
          obtain ⟨ht', hf'⟩ := get_token_by_priority_pool q1 TokenPriority.SHARED
          rw [hS] at ht' hf'
          rw [hq1] at hg ht' hf'
          exact ⟨hg, by rw [← h2, ht'], by rw [← h2, hf']⟩
        · rename_i q2 hS
          have hq2 : q2 = q1 := get_token_by_priority_none _ _ _ hS
          obtain ⟨hg, _, _⟩ := get_token_by_priority_some _ _ _ _ _ hres
          obtain ⟨ht', hf'⟩ := get_token_by_priority_pool q2 TokenPriority.PERSONAL
          rw [hres] at ht' hf'
          rw [hq2, hq1] at hg ht' hf'
          exact ⟨hg, ht', hf'⟩
    obtain ⟨hg, htoks, hfl⟩ := hinfo
    obtain ⟨hlt, hgete⟩ := List.getElem?_eq_some.mp hg
    have hti : p.tokens.getD i default = t := by
      rw [List.getD_eq_getElem _ _ hlt]
      exact hgete
    refine preserves_counts_set p _ i { t with last_used := now } ?_ ?_ ?_ ?_
    · dsimp only
      rw [htoks]
    · dsimp only
      exact hfl
    · rw [hti]
    · rw [hti]

theorem pick_excluding_preserves (q : TokenPool) (e : Option String) (now : Int)
    (prio : TokenPriority) : preserves_counts q (pick_excluding q e now prio).2 := by
  unfold pick_excluding
  dsimp only
  split
  · exact preserves_counts_refl q
  · rename_i hne
    set pts := q.tokens.enum.filter (fun it =>
      selectable q.failed_tokens prio it.2 &&
        decide (e = none ∨ some it.2.refresh_token ≠ e)) with hpts
    have hlen : 0 < pts.length := List.length_pos.mpr hne
    have hidx : q.last_used_index.get prio % pts.length < pts.length :=
      Nat.mod_lt _ hlen
    have hmem : pts.getD (q.last_used_index.get prio % pts.length) (0, default) ∈ pts := by
      rw [List.getD_eq_getElem _ _ hidx]
      exact List.getElem_mem hidx
    have henum := List.mem_of_mem_filter hmem
    rw [List.mem_enum_iff_getElem?] at henum
    obtain ⟨hlt, hgete⟩ := List.getElem?_eq_some.mp henum
    refine preserves_counts_set q _
      (pts.getD (q.last_used_index.get prio % pts.length) (0, default)).1
      { (pts.getD (q.last_used_index.get prio % pts.length) (0, default)).2 with
          last_used := now } rfl rfl ?_ ?_
    · dsimp only
      rw [List.getD_eq_getElem _ _ hlt, hgete]
    · dsimp only
      rw [List.getD_eq_getElem _ _ hlt, hgete]

theorem get_next_token_excluding_preserves (p : TokenPool) (e : Option String)
    (now : Int) : preserves_counts p (get_next_token_excluding p e now).2 := by
  unfold get_next_token_excluding
  split
  · rename_i r q hA
    have h := pick_excluding_preserves p e now TokenPriority.ANONYMOUS
    rw [hA] at h
    exact h
  · rename_i q hA
    have hq : q = p := pick_excluding_none_pool _ _ _ _ _ hA
    split
    · rename_i r q2 hS
      have h := pick_excluding_preserves q e now TokenPriority.SHARED
      rw [hS] at h
      rw [hq] at h
      exact h
    · rename_i q2 hS
      have hq2 : q2 = q := pick_excluding_none_pool _ _ _ _ _ hS
      rw [hq2, hq]
      exact pick_excluding_preserves p e now TokenPriority.PERSONAL

theorem refresh_token_info_preserves (env : Env) (cIdx : Nat) (p : TokenPool)
    (i : Nat) : preserves_counts p (refresh_token_info env cIdx p i).2 := by
  unfold refresh_token_info
  dsimp only
  split
  · refine preserves_counts_set p _ i _ rfl rfl rfl rfl
  · exact preserves_counts_refl p

theorem acquire_anonymous_preserves (env : Env) (p : TokenPool) :
    preserves_counts p (acquire_anonymous env p).2 := by
  unfold acquire_anonymous
  split
  · split
    · exact preserves_counts_refl p
    · exact preserves_counts_append p _ _ rfl rfl
  · exact preserves_counts_refl p

theorem initial_credential_preserves (env : Env) (p : TokenPool) :
    preserves_counts p (initial_credential env p).2.2.1 := by
  unfold initial_credential
  split
  · rename_i i ti p1 hsel
    have h1 : preserves_counts p p1 := by
      have h := get_next_token_preserves p env.now
      rw [hsel] at h
      exact h
    split
    · exact h1
    · split
      · rename_i jwt p2 hr
        have h2 : preserves_counts p1 p2 := by
          have h := refresh_token_info_preserves env 0 p1 i
          rw [hr] at h
          exact h
        exact preserves_counts_trans h1 h2
      · rename_i p2 hr
        have h2 : preserves_counts p1 p2 := by
          have h := refresh_token_info_preserves env 0 p1 i
          rw [hr] at h
          exact h
        exact preserves_counts_trans h1 h2
  · rename_i p1 hsel
    have h := get_next_token_preserves p env.now
    rw [hsel] at h
    exact h

theorem second_attempt1_pool (env : Env) (showAll : Bool) (p : TokenPool) :
    (second_attempt1 env showAll p).2.1 = p := by
  simp only [second_attempt1]
  repeat' split
  all_goals rfl

theorem second_attempt2_pool (env : Env) (p : TokenPool) :
    (second_attempt2 env p).2.1 = p := by
  simp only [second_attempt2]
  repeat' split
  all_goals rfl

theorem run_request_preserves (env : Env) (showAll : Bool) (p : TokenPool) :
    preserves_counts p (run_request env showAll p).2.1 := by
  have h0 := initial_credential_preserves env p
  unfold run_request
  dsimp only
  split
  · split
    · exact h0
    · exact h0
  · split
    · split
      · rename_i p3 hex
        have hEx := get_next_token_excluding_preserves
          (initial_credential env p).2.2.1
          (current_or_last_used (initial_credential env p).2.2.1
            (initial_credential env p).2.1) env.now
        rw [hex] at hEx
        have h1 := preserves_counts_trans h0 hEx
        split
        · rename_i jwt p4 hAn
          have hAq := acquire_anonymous_preserves env p3
          rw [hAn] at hAq
          rw [second_attempt1_pool]
          exact preserves_counts_trans h1 hAq
        · rename_i p4 hAn
          have hAq := acquire_anonymous_preserves env p3
          rw [hAn] at hAq
          exact preserves_counts_trans h1 hAq
      · rename_i j tj p3 hex
        have hEx := get_next_token_excluding_preserves
          (initial_credential env p).2.2.1
          (current_or_last_used (initial_credential env p).2.2.1
            (initial_credential env p).2.1) env.now
        rw [hex] at hEx
        have h1 := preserves_counts_trans h0 hEx
        split
        · rw [second_attempt1_pool]
          exact h1
        · split
          · rename_i jwt p4 hr
            have hRef := refresh_token_info_preserves env
              (initial_credential env p).2.2.2 p3 j
            rw [hr] at hRef
            rw [second_attempt1_pool]
            exact preserves_counts_trans h1 hRef
          · rename_i p4 hr
            have hRef := refresh_token_info_preserves env
              (initial_credential env p).2.2.2 p3 j
            rw [hr] at hRef
            exact preserves_counts_trans h1 hRef
    · split
      · split
        · rename_i j tj p3 hex
          have hEx := get_next_token_excluding_preserves
            (initial_credential env p).2.2.1
            (current_or_last_used (initial_credential env p).2.2.1
              (initial_credential env p).2.1) env.now
          rw [hex] at hEx
          have h1 := preserves_counts_trans h0 hEx
          split
          · rename_i jwt p4 hr
            have hRef := refresh_token_info_preserves env
              (initial_credential env p).2.2.2 p3 j
            rw [hr] at hRef
            rw [second_attempt1_pool]
            exact preserves_counts_trans h1 hRef
          · rename_i p4 hr
            have hRef := refresh_token_info_preserves env
              (initial_credential env p).2.2.2 p3 j
            rw [hr] at hRef
            exact preserves_counts_trans h1 hRef
        · rename_i p3 hex
          have hEx := get_next_token_excluding_preserves
            (initial_credential env p).2.2.1
            (current_or_last_used (initial_credential env p).2.2.1
              (initial_credential env p).2.1) env.now
          rw [hex] at hEx
          exact preserves_counts_trans h0 hEx
      · exact h0

theorem run_request_parsed_preserves (env : Env) (p : TokenPool) :
    preserves_counts p (run_request_parsed env p).2.1 := by
  have h0 := initial_credential_preserves env p
  unfold run_request_parsed
  dsimp only
  split
  · exact h0
  · split
    · split
      · rename_i p3 hex
        have hEx := get_next_token_excluding_preserves
          (initial_credential env p).2.2.1
          (current_or_last_used (initial_credential env p).2.2.1
            (initial_credential env p).2.1) env.now
        rw [hex] at hEx
        have h1 := preserves_counts_trans h0 hEx
        split
        · rename_i jwt p4 hAn
          have hAq := acquire_anonymous_preserves env p3
          rw [hAn] at hAq
          rw [second_attempt2_pool]
          exact preserves_counts_trans h1 hAq
        · rename_i p4 hAn
          have hAq := acquire_anonymous_preserves env p3
          rw [hAn] at hAq
          exact preserves_counts_trans h1 hAq
      · rename_i j tj p3 hex
        have hEx := get_next_token_excluding_preserves
          (initial_credential env p).2.2.1
          (current_or_last_used (initial_credential env p).2.2.1
            (initial_credential env p).2.1) env.now
        rw [hex] at hEx
        have h1 := preserves_counts_trans h0 hEx
        split
        · rw [second_attempt2_pool]
          exact h1
        · split
          · rename_i jwt p4 hr
            have hRef := refresh_token_info_preserves env
              (initial_credential env p).2.2.2 p3 j
            rw [hr] at hRef
            rw [second_attempt2_pool]
            exact preserves_counts_trans h1 hRef
          · rename_i p4 hr
            have hRef := refresh_token_info_preserves env
              (initial_credential env p).2.2.2 p3 j
            rw [hr] at hRef
            have h2 := preserves_counts_trans h1 hRef
            split
            · rename_i jwt2 p5 hAn
              have hAq := acquire_anonymous_preserves env p4
              rw [hAn] at hAq
              rw [second_attempt2_pool]
              exact preserves_counts_trans h2 hAq
            · rename_i p5 hAn
              have hAq := acquire_anonymous_preserves env p4
              rw [hAn] at hAq
              exact preserves_counts_trans h2 hAq
    · split
      · split
        · rename_i j tj p3 hex
          have hEx := get_next_token_excluding_preserves
            (initial_credential env p).2.2.1
            (current_or_last_used (initial_credential env p).2.2.1
              (initial_credential env p).2.1) env.now
          rw [hex] at hEx
          have h1 := preserves_counts_trans h0 hEx
          split
          · rename_i jwt p4 hr
            have hRef := refresh_token_info_preserves env
              (initial_credential env p).2.2.2 p3 j
            rw [hr] at hRef
            rw [second_attempt2_pool]
            exact preserves_counts_trans h1 hRef
          · rename_i p4 hr
            have hRef := refresh_token_info_preserves env
              (initial_credential env p).2.2.2 p3 j
            rw [hr] at hRef
            exact preserves_counts_trans h1 hRef
        · rename_i p3 hex
          have hEx := get_next_token_excluding_preserves
            (initial_credential env p).2.2.1
            (current_or_last_used (initial_credential env p).2.2.1
              (initial_credential env p).2.1) env.now
          rw [hex] at hEx
          exact preserves_counts_trans h0 hEx
      · exact h0

/-- C2 counterexample: a request that succeeds (200, stream drained)
using a pooled identity with a cached credential leaves the identity's
`failure_count` at its prior value 1 — `mark_token_success` is never
invoked, refuting "immediately afterwards r.failure_count == 0". -/
theorem c2_counterexample :
    (run_request env200 true poolFc1).1.isOk = true ∧
    ((run_request env200 true poolFc1).2.1.tokens.getD 0 default).failure_count
      = 1 := by
  constructor
  · rfl
  · rfl

/-- C2 (amended): the success path returns the decoded stream without
invoking `mark_success`: for every request that terminates successfully,
each pre-existing record's `failure_count` and `is_active` and the failed
set are exactly as before the request. -/
theorem c2_amended_thm (env : Env) (showAll : Bool) (p : TokenPool)
    (hok : (run_request env showAll p).1.isOk = true) :
    (run_request env showAll p).2.1.failed_tokens = p.failed_tokens ∧
    ∀ i, i < p.tokens.length →
      ((run_request env showAll p).2.1.tokens.getD i default).failure_count =
        (p.tokens.getD i default).failure_count ∧
      ((run_request env showAll p).2.1.tokens.getD i default).is_active =
        (p.tokens.getD i default).is_active := by
  have h := run_request_preserves env showAll p
  exact ⟨h.1, fun i hi => ⟨(h.2 i hi).2.1, (h.2 i hi).2.2⟩⟩

/-- Concrete instance of `c2_amended_thm`. -/
theorem c2_amended_witness :
    (run_request env200 true poolFc1).2.1.failed_tokens = poolFc1.failed_tokens ∧
    ∀ i, i < poolFc1.tokens.length →
      ((run_request env200 true poolFc1).2.1.tokens.getD i default).failure_count =
        (poolFc1.tokens.getD i default).failure_count ∧
      ((run_request env200 true poolFc1).2.1.tokens.getD i default).is_active =
        (poolFc1.tokens.getD i default).is_active :=
  c2_amended_thm env200 true poolFc1 (by rfl)

/-- C3 counterexample (scenario S5): a pool with one Personal identity,
upstream answering 500 and no alternate identity, yields the typed
500 failure after one transaction, but `mark_token_failed` is never
invoked: the Personal record ends with `failure_count = 0`, not 1. -/
theorem c3_counterexample :
    (run_request env500 true poolPersonal).1 =
      ReqResult1.httpError 500 "Internal Server Error".toList ∧
    ((run_request env500 true poolPersonal).2.1.tokens.getD 0 default).failure_count
      = 0 ∧
    (run_request env500 true poolPersonal).2.1.failed_tokens = [] := by
  refine ⟨?_, ?_, ?_⟩
  · rfl
  · rfl
  · rfl

/-- C3 (amended): the controller returns upstream 429/5xx failures
without calling `mark_failure`: on every failing request each
pre-existing record's `failure_count` and `is_active` and the failed set
are unchanged (in S5 the Personal record keeps `failure_count = 0`). -/
theorem c3_amended_thm (env : Env) (showAll : Bool) (p : TokenPool)
    (herr : (run_request env showAll p).1.isOk = false) :
    (run_request env showAll p).2.1.failed_tokens = p.failed_tokens ∧
    ∀ i, i < p.tokens.length →
      ((run_request env showAll p).2.1.tokens.getD i default).failure_count =
        (p.tokens.getD i default).failure_count ∧
      ((run_request env showAll p).2.1.tokens.getD i default).is_active =
        (p.tokens.getD i default).is_active := by
  have h := run_request_preserves env showAll p
  exact ⟨h.1, fun i hi => ⟨(h.2 i hi).2.1, (h.2 i hi).2.2⟩⟩

/-- Concrete instance of `c3_amended_thm`. -/
theorem c3_amended_witness :
    (run_request env500 true poolPersonal).2.1.failed_tokens =
      poolPersonal.failed_tokens ∧
    ∀ i, i < poolPersonal.tokens.length →
      ((run_request env500 true poolPersonal).2.1.tokens.getD i default).failure_count =
        (poolPersonal.tokens.getD i default).failure_count ∧
      ((run_request env500 true poolPersonal).2.1.tokens.getD i default).is_active =
        (poolPersonal.tokens.getD i default).is_active :=
  c3_amended_thm env500 true poolPersonal (by rfl)

theorem sse_loop_done (flush : SSEState → SSEState) (st : SSEState)
    (l : List Char) (rest : List (List Char)) (h : done_line l) :
    sse_loop flush st (l :: rest) = st := by
  rw [sse_loop]
  rw [if_pos h.1]
  dsimp only
  rw [if_neg (by rw [h.2]; decide)]
  rw [if_pos h.2]

theorem sse_loop_pending_tail (flush : SSEState → SSEState) :
    ∀ (ts : List (List Char)) (st : SSEState),
      (∀ l ∈ ts, pending_data_line l) →
      ((sse_loop flush st ts).outputs = st.outputs ∧
       ∀ dl rest, done_line dl →
         (sse_loop flush st (ts ++ dl :: rest)).outputs = st.outputs) := by
  intro ts
  induction ts with
  | nil =>
    intro st hts
    refine ⟨rfl, ?_⟩
    intro dl rest hdl
    rw [List.nil_append, sse_loop_done flush st dl rest hdl]
  | cons l ts ih =>
    intro st hts
    have hl := hts l (List.mem_cons_self _ _)
    have hts' : ∀ x ∈ ts, pending_data_line x :=
      fun x hx => hts x (List.mem_cons_of_mem _ hx)
    constructor
    · rw [sse_loop, if_pos hl.1]
      dsimp only
      by_cases hp : pyStrip (l.drop 5) = []
      · rw [if_pos hp]
        exact (ih st hts').1
      · rw [if_neg hp, if_neg hl.2]
        exact (ih _ hts').1
    · intro dl rest hdl
      rw [List.cons_append, sse_loop, if_pos hl.1]
      dsimp only
      by_cases hp : pyStrip (l.drop 5) = []
      · rw [if_pos hp]
        exact (ih st hts').2 dl rest hdl
      · rw [if_neg hp, if_neg hl.2]
        exact (ih _ hts').2 dl rest hdl

theorem sse_loop_discards_trailing (flush : SSEState → SSEState) :
    ∀ (ls : List (List Char)) (st : SSEState) (ts : List (List Char)),
      (∀ l ∈ ts, pending_data_line l) →
      ((sse_loop flush st (ls ++ ts)).outputs =
         (sse_loop flush st ls).outputs ∧
       ∀ dl rest, done_line dl →
         (sse_loop flush st (ls ++ ts ++ dl :: rest)).outputs =
           (sse_loop flush st ls).outputs) := by
  intro ls
  induction ls with
  | nil =>
    intro st ts hts
    refine ⟨(sse_loop_pending_tail flush ts st hts).1, ?_⟩
    intro dl rest hdl
    exact (sse_loop_pending_tail flush ts st hts).2 dl rest hdl
  | cons l ls ih =>
    intro st ts hts
    constructor
    · rw [List.cons_append, sse_loop, sse_loop]
      split
      · dsimp only
        split
        · exact (ih st ts hts).1
        · split
          · rfl
          · exact (ih _ ts hts).1
      · split
        · exact (ih _ ts hts).1
        · exact (ih st ts hts).1
    · intro dl rest hdl
      rw [List.cons_append]
      simp only [sse_loop]
      split
      · split
        · exact (ih st ts hts).2 dl rest hdl
        · split
          · rfl
          · exact (ih _ ts hts).2 dl rest hdl
      · split
        · exact (ih _ ts hts).2 dl rest hdl
        · exact (ih st ts hts).2 dl rest hdl

/-- C8: in both SSE loops, chunk data accumulated from trailing `data:`
lines that are never followed by a blank line is silently discarded —
whether the stream simply ends or a `[DONE]` sentinel (followed by
anything) arrives, the outputs (ids, text fragments, event list, event
count) equal those of the stream without the trailing lines. -/
theorem c8_trailing_chunk_discarded (decode : List Nat → Option EventData) (showAll : Bool)
    (ls ts rest : List (List Char)) (dl : List Char)
    (hts : ∀ l ∈ ts, pending_data_line l) (hdl : done_line dl) :
    ((process_sse_lines decode showAll (ls ++ ts)).outputs =
       (process_sse_lines decode showAll ls).outputs ∧
     (process_sse_lines decode showAll (ls ++ ts ++ dl :: rest)).outputs =
       (process_sse_lines decode showAll ls).outputs) ∧
    ((process_sse_lines_parsed decode (ls ++ ts)).outputs =
       (process_sse_lines_parsed decode ls).outputs ∧
     (process_sse_lines_parsed decode (ls ++ ts ++ dl :: rest)).outputs =
       (process_sse_lines_parsed decode ls).outputs) := by
  refine ⟨⟨?_, ?_⟩, ?_, ?_⟩
  · exact (sse_loop_discards_trailing (flush1 decode showAll) ls {} ts hts).1
  · exact (sse_loop_discards_trailing (flush1 decode showAll) ls {} ts hts).2
      dl rest hdl
  · exact (sse_loop_discards_trailing (flush2 decode) ls {} ts hts).1
  · exact (sse_loop_discards_trailing (flush2 decode) ls {} ts hts).2 dl rest hdl

/-- Concrete instance of `c8_trailing_chunk_discarded`. -/
theorem c8_witness :
    ((process_sse_lines (fun _ => none) true
        ([] ++ ["data:ff".toList])).outputs =
       (process_sse_lines (fun _ => none) true []).outputs ∧
     (process_sse_lines (fun _ => none) true
        ([] ++ ["data:ff".toList] ++ "data: [DONE]".toList :: [])).outputs =
       (process_sse_lines (fun _ => none) true []).outputs) ∧
    ((process_sse_lines_parsed (fun _ => none)
        ([] ++ ["data:ff".toList])).outputs =
       (process_sse_lines_parsed (fun _ => none) []).outputs ∧
     (process_sse_lines_parsed (fun _ => none)
        ([] ++ ["data:ff".toList] ++ "data: [DONE]".toList :: [])).outputs =
       (process_sse_lines_parsed (fun _ => none) []).outputs) :=
  c8_trailing_chunk_discarded (fun _ => none) true [] ["data:ff".toList] [] "data: [DONE]".toList
    (by decide) (by decide)

theorem hexDigitVal?_hexDigitChar : ∀ n, n < 16 →
    hexDigitVal? (hexDigitChar n) = some n := by decide

theorem hexDigitChar_props : ∀ n, n < 16 →
    isHexChar (hexDigitChar n) = true ∧ isPySpace (hexDigitChar n) = false := by
  decide

theorem hexEncode_chars (b : List Nat) (hb : ∀ x ∈ b, x < 256) :
    ∀ c ∈ hexEncode b, isHexChar c = true ∧ isPySpace c = false := by
  induction b with
  | nil => intro c hc; simp [hexEncode] at hc
  | cons x rest ih =>
    intro c hc
    have hx : x < 256 := hb x (List.mem_cons_self _ _)
    rw [hexEncode] at hc
    simp only [List.mem_cons] at hc
    rcases hc with rfl | rfl | hc
    · exact hexDigitChar_props _ (by omega)
    · exact hexDigitChar_props _ (by omega)
    · exact ih (fun y hy => hb y (List.mem_cons_of_mem _ hy)) c hc

theorem hexDecode?_hexEncode (b : List Nat) (hb : ∀ x ∈ b, x < 256) :
    hexDecode? (hexEncode b) = some b := by
  induction b with
  | nil => rfl
  | cons x rest ih =>
    have hx : x < 256 := hb x (List.mem_cons_self _ _)
    rw [hexEncode, hexDecode?]
    rw [hexDigitVal?_hexDigitChar _ (by omega), hexDigitVal?_hexDigitChar _ (by omega)]
    rw [ih (fun y hy => hb y (List.mem_cons_of_mem _ hy))]
    dsimp only
    have hxeq : 16 * (x / 16) + x % 16 = x := by omega
    rw [hxeq]

theorem parse_payload_hexEncode (b : List Nat) (hne : b ≠ [])
    (hb : ∀ x ∈ b, x < 256) :
    parse_payload_bytes (hexEncode b) = some b := by
  unfold parse_payload_bytes
  have hchars := hexEncode_chars b hb
  have hfilter : (hexEncode b).filter (fun c => !(isPySpace c)) = hexEncode b :=
    List.filter_eq_self.mpr (fun c hc => by rw [(hchars c hc).2]; rfl)
  rw [hfilter]
  have henil : hexEncode b ≠ [] := by
    cases b with
    | nil => exact absurd rfl hne
    | cons x rest => rw [hexEncode]; simp
  rw [if_neg henil]
  have hall : (hexEncode b).all isHexChar = true :=
    List.all_eq_true.mpr (fun c hc => (hchars c hc).1)
  rw [hall, hexDecode?_hexEncode b hb]
  rfl

theorem b64IdxUrl?_b64UrlChar : ∀ n, n < 64 →
    b64IdxUrl? (b64UrlChar n) = some n := by decide

theorem b64UrlChar_props : ∀ n, n < 64 →
    (b64UrlChar n = '=') = False ∧ isPySpace (b64UrlChar n) = false := by decide

theorem b64Indices_lt (b : List Nat) (hb : ∀ x ∈ b, x < 256) :
    ∀ i ∈ b64Indices b, i < 64 := by
  induction b using list3Induction with
  | h0 => intro i hi; simp [b64Indices] at hi
  | h1 a =>
    intro i hi
    have ha : a < 256 := hb a (by simp)
    rw [b64Indices] at hi
    simp only [List.mem_cons, List.not_mem_nil, or_false] at hi
    rcases hi with rfl | rfl <;> omega
  | h2 a c =>
    intro i hi
    have ha : a < 256 := hb a (by simp)
    have hc : c < 256 := hb c (by simp)
    rw [b64Indices] at hi
    simp only [List.mem_cons, List.not_mem_nil, or_false] at hi
    rcases hi with rfl | rfl | rfl <;> omega
  | h3 a c d l ih =>
    intro i hi
    have ha : a < 256 := hb a (by simp)
    have hc : c < 256 := hb c (by simp)
    have hd : d < 256 := hb d (by simp)
    rw [b64Indices] at hi
    simp only [List.mem_cons] at hi
    rcases hi with rfl | rfl | rfl | rfl | hi
    · omega
    · omega
    · omega
    · omega
    · exact ih (fun y hy => hb y (by simp [hy])) i hi

theorem b64DecodeQuads_b64Indices (b : List Nat) (hb : ∀ x ∈ b, x < 256) :
    b64DecodeQuads (b64Indices b) = b := by
  induction b using list3Induction with
  | h0 => rfl
  | h1 a =>
    have ha : a < 256 := hb a (by simp)
    rw [b64Indices, b64DecodeQuads]
    have h1 : a / 4 * 4 + a % 4 * 16 / 16 = a := by omega
    rw [h1]
  | h2 a c =>
    have ha : a < 256 := hb a (by simp)
    have hc : c < 256 := hb c (by simp)
    rw [b64Indices, b64DecodeQuads]
    have h1 : a / 4 * 4 + (a % 4 * 16 + c / 16) / 16 = a := by omega
    have h2 : (a % 4 * 16 + c / 16) % 16 * 16 + c % 16 * 4 / 4 = c := by omega
    rw [h1, h2]
  | h3 a c d l ih =>
    have ha : a < 256 := hb a (by simp)
    have hc : c < 256 := hb c (by simp)
    have hd : d < 256 := hb d (by simp)
    rw [b64Indices, b64DecodeQuads]
    have h1 : a / 4 * 4 + (a % 4 * 16 + c / 16) / 16 = a := by omega
    have h2 : (a % 4 * 16 + c / 16) % 16 * 16 + (c % 16 * 4 + d / 64) / 4 = c := by
      omega
    have h3 : (c % 16 * 4 + d / 64) % 4 * 64 + d % 64 = d := by omega
    rw [h1, h2, h3, ih (fun y hy => hb y (by simp [hy]))]

theorem b64Indices_len_mod (b : List Nat) : (b64Indices b).length % 4 ≠ 1 := by
  induction b using list3Induction with
  | h0 => simp [b64Indices]
  | h1 a => simp [b64Indices]
  | h2 a c => simp [b64Indices]
  | h3 a c d l ih =>
    rw [b64Indices]
    simp only [List.length_cons]
    omega

theorem takeWhile_append_of_all {α : Type} (p : α → Bool) :
    ∀ (xs ys : List α), (∀ x ∈ xs, p x = true) →
      (xs ++ ys).takeWhile p = xs ++ ys.takeWhile p := by
  intro xs ys
  induction xs with
  | nil => intro _; rfl
  | cons x xs ih =>
    intro hall
    rw [List.cons_append, List.takeWhile_cons, hall x (by simp),
      ih (fun y hy => hall y (by simp [hy]))]
    simp

theorem dropWhile_append_of_all {α : Type} (p : α → Bool) :
    ∀ (xs ys : List α), (∀ x ∈ xs, p x = true) →
      (xs ++ ys).dropWhile p = ys.dropWhile p := by
  intro xs ys
  induction xs with
  | nil => intro _; rfl
  | cons x xs ih =>
    intro hall
    rw [List.cons_append, List.dropWhile_cons, hall x (by simp)]
    simp only [if_true]
    exact ih (fun y hy => hall y (by simp [hy]))

theorem takeWhile_replicate_eq_nil (k : Nat) :
    (List.replicate k '=').takeWhile (fun c => c ≠ '=') = [] := by
  cases k with
  | zero => rfl
  | succ n => rw [List.replicate_succ, List.takeWhile_cons]; simp

theorem dropWhile_replicate_self (k : Nat) :
    (List.replicate k '=').dropWhile (fun c => c ≠ '=') = List.replicate k '=' := by
  cases k with
  | zero => rfl
  | succ n => rw [List.replicate_succ, List.dropWhile_cons]; simp

theorem mapM_map_of_all {α β : Type} (f : β → Option α) (g : α → β) :
    ∀ (l : List α), (∀ x ∈ l, f (g x) = some x) →
      (l.map g).mapM f = some l := by
  intro l
  induction l with
  | nil => intro _; rfl
  | cons x xs ih =>
    intro hall
    rw [List.map_cons, List.mapM_cons, hall x (by simp),
      ih (fun y hy => hall y (by simp [hy]))]
    rfl

theorem b64UrlEncodeNoPad_chars (b : List Nat) (hb : ∀ x ∈ b, x < 256) :
    ∀ c ∈ b64UrlEncodeNoPad b, c ≠ '=' ∧ isPySpace c = false := by
  intro c hc
  rw [b64UrlEncodeNoPad] at hc
  obtain ⟨i, hi, rfl⟩ := List.mem_map.mp hc
  have hlt : i < 64 := b64Indices_lt b hb i hi
  obtain ⟨hne, hsp⟩ := b64UrlChar_props i hlt
  exact ⟨fun hx => hne ▸ hx, hsp⟩

theorem b64decode_url_roundtrip (b : List Nat) (hb : ∀ x ∈ b, x < 256) :
    b64decode? b64IdxUrl?
      (b64UrlEncodeNoPad b ++
        List.replicate ((4 - (b64UrlEncodeNoPad b).length % 4) % 4) '=') =
      some b := by
  have hchars := b64UrlEncodeNoPad_chars b hb
  have hdata : (b64UrlEncodeNoPad b ++
      List.replicate ((4 - (b64UrlEncodeNoPad b).length % 4) % 4) '=').takeWhile
        (fun c => c ≠ '=') = b64UrlEncodeNoPad b := by
    rw [takeWhile_append_of_all _ _ _
      (fun c hc => by simpa using (hchars c hc).1)]
    rw [takeWhile_replicate_eq_nil, List.append_nil]
  have hpadc : (b64UrlEncodeNoPad b ++
      List.replicate ((4 - (b64UrlEncodeNoPad b).length % 4) % 4) '=').dropWhile
        (fun c => c ≠ '=') =
      List.replicate ((4 - (b64UrlEncodeNoPad b).length % 4) % 4) '=' := by
    rw [dropWhile_append_of_all _ _ _
      (fun c hc => by simpa using (hchars c hc).1)]
    exact dropWhile_replicate_self _
  simp only [b64decode?]
  rw [hdata, hpadc]
  have hallpad : (List.replicate ((4 - (b64UrlEncodeNoPad b).length % 4) % 4)
      '=').all (fun c => c = '=') = true := by
    rw [List.all_eq_true]
    intro c hc
    rw [List.eq_of_mem_replicate hc]
    simp
  rw [hallpad, if_pos rfl]
  rw [b64UrlEncodeNoPad, mapM_map_of_all b64IdxUrl? b64UrlChar _
    (fun i hi => b64IdxUrl?_b64UrlChar i (b64Indices_lt b hb i hi))]
  dsimp only
  have hlen : (List.map b64UrlChar (b64Indices b)).length =
      (b64Indices b).length := List.length_map _ _
  rw [List.length_replicate, hlen]
  have hmod := b64Indices_len_mod b
  rw [if_pos (by omega)]
  rw [b64DecodeQuads_b64Indices b hb]

theorem hexDecode?_odd : ∀ s : List Char, s.length % 2 = 1 → hexDecode? s = none
  | [], h => by simp at h
  | [c], _ => rfl
  | c1 :: c2 :: rest, h => by
    have hr : rest.length % 2 = 1 := by
      simp only [List.length_cons] at h
      omega
    rw [hexDecode?]
    rw [hexDecode?_odd rest hr]
    rcases hexDigitVal? c1 with _ | v1 <;> rcases hexDigitVal? c2 with _ | v2 <;> rfl

theorem hexDecode?_even_isSome : ∀ s : List Char, s.all isHexChar = true →
    s.length % 2 = 0 → ∃ bs, hexDecode? s = some bs
  | [], _, _ => ⟨[], rfl⟩
  | [c], _, h2 => by simp at h2
  | c1 :: c2 :: rest, h1, h2 => by
    simp only [List.all_cons, Bool.and_eq_true] at h1
    have hr : rest.length % 2 = 0 := by
      simp only [List.length_cons] at h2
      omega
    obtain ⟨bs, hbs⟩ := hexDecode?_even_isSome rest h1.2.2 hr
    rw [isHexChar] at h1
    obtain ⟨v1, hv1⟩ := Option.isSome_iff_exists.mp h1.1
    have h22 := h1.2.1
    rw [isHexChar] at h22
    obtain ⟨v2, hv2⟩ := Option.isSome_iff_exists.mp h22
    refine ⟨(16 * v1 + v2) :: bs, ?_⟩
    rw [hexDecode?, hv1, hv2, hbs]

theorem isHexChar_not_space (c : Char) (h : isHexChar c = true) :
    isPySpace c = false := by
  by_contra hx
  rw [Bool.not_eq_false, isPySpace] at hx
  simp only [Bool.or_eq_true, decide_eq_true_eq] at hx
  rcases hx with ((((h1 | h1) | h1) | h1) | h1) | h1 <;>
    (subst h1; exact absurd h (by decide))

theorem b64UrlEncodeNoPad_ne_nil (b : List Nat) (hne : b ≠ []) :
    b64UrlEncodeNoPad b ≠ [] := by
  rw [b64UrlEncodeNoPad]
  match b with
  | [] => exact absurd rfl hne
  | [a] => simp [b64Indices]
  | [a, c] => simp [b64Indices]
  | a :: c :: d :: l => simp [b64Indices]

theorem parse_payload_hex_first (s : List Char) (hne : s ≠ [])
    (hall : s.all isHexChar = true) (heven : s.length % 2 = 0) :
    parse_payload_bytes s = hexDecode? s := by
  unfold parse_payload_bytes
  have hfilter : s.filter (fun c => !(isPySpace c)) = s :=
    List.filter_eq_self.mpr (fun c hc => by
      rw [isHexChar_not_space c (List.all_eq_true.mp hall c hc)]
      rfl)
  rw [hfilter, if_neg hne, hall]
  obtain ⟨bs, hbs⟩ := hexDecode?_even_isSome s hall heven
  rw [hbs]
  rfl

theorem parse_payload_b64u (b : List Nat) (hne : b ≠ [])
    (hb : ∀ x ∈ b, x < 256)
    (hnothex : ¬((b64UrlEncodeNoPad b).all isHexChar = true ∧
      (b64UrlEncodeNoPad b).length % 2 = 0)) :
    parse_payload_bytes (b64UrlEncodeNoPad b) = some b := by
  unfold parse_payload_bytes
  have hchars := b64UrlEncodeNoPad_chars b hb
  have hfilter : (b64UrlEncodeNoPad b).filter (fun c => !(isPySpace c)) =
      b64UrlEncodeNoPad b :=
    List.filter_eq_self.mpr (fun c hc => by rw [(hchars c hc).2]; rfl)
  rw [hfilter, if_neg (b64UrlEncodeNoPad_ne_nil b hne)]
  have hb64 := b64decode_url_roundtrip b hb
  rcases hhx : (b64UrlEncodeNoPad b).all isHexChar with _ | _
  · dsimp only
    rw [hb64]
    rfl
  · have hodd : (b64UrlEncodeNoPad b).length % 2 = 1 := by
      rcases Nat.mod_two_eq_zero_or_one (b64UrlEncodeNoPad b).length with h | h
      · exact absurd ⟨hhx, h⟩ hnothex
      · exact h
    dsimp only
    rw [hexDecode?_odd _ hodd, hb64]
    rfl

/-- C5 counterexample: the byte string 0x04 URL-safe-encodes (padding
stripped) to "BA", which is even-length pure hex, so the decoder's
hex-first precedence decodes it to 0xBA, not 0x04 — the base64 half of
the claimed round trip fails. -/
theorem c5_counterexample :
    (b64UrlEncodeNoPad [4] = ['B', 'A'] ∧
     parse_payload_bytes (b64UrlEncodeNoPad [4]) = some [186] ∧
     parse_payload_bytes (b64UrlEncodeNoPad [4]) ≠ some [4] ∧
     parse_payload_bytes2 (b64UrlEncodeNoPad [4]) ≠ some [4]) ∧
    (parse_payload_bytes (hexEncode []) ≠ some [] ∧
     parse_payload_bytes (b64UrlEncodeNoPad []) ≠ some []) := by
  exact ⟨⟨rfl, rfl, by decide, by decide⟩, by decide, by decide⟩

/-- C5 (amended): for every non-empty byte string `b`, the decoder maps
the hex encoding of `b` back to `b`; it maps the padding-stripped
URL-safe base64 encoding of `b` back to `b` provided that encoding is
not itself an even-length pure-hex string (hex is tried first and wins
on such strings, as the counterexample shows); and on any non-empty
even-length pure-hex input the decoder is exactly `bytes.fromhex`.  Both
modes share the same decoder. -/
theorem c5_amended_thm (b : List Nat) (hne : b ≠ []) (hb : ∀ x ∈ b, x < 256) :
    parse_payload_bytes (hexEncode b) = some b ∧
    (¬((b64UrlEncodeNoPad b).all isHexChar = true ∧
        (b64UrlEncodeNoPad b).length % 2 = 0) →
      parse_payload_bytes (b64UrlEncodeNoPad b) = some b) ∧
    (∀ s : List Char, s ≠ [] → s.all isHexChar = true → s.length % 2 = 0 →
      parse_payload_bytes s = hexDecode? s) ∧
    parse_payload_bytes2 (hexEncode b) = parse_payload_bytes (hexEncode b) :=
  ⟨parse_payload_hexEncode b hne hb,
   fun h => parse_payload_b64u b hne hb h,
   fun s h1 h2 h3 => parse_payload_hex_first s h1 h2 h3,
   rfl⟩

/-- Concrete instance of `c5_amended_thm` at the one-byte string 0xC8,
whose stripped URL-safe encoding "yA" is not pure hex. -/
theorem c5_amended_witness :
    parse_payload_bytes (hexEncode [200]) = some [200] ∧
    (¬((b64UrlEncodeNoPad [200]).all isHexChar = true ∧
        (b64UrlEncodeNoPad [200]).length % 2 = 0) →
      parse_payload_bytes (b64UrlEncodeNoPad [200]) = some [200]) ∧
    (∀ s : List Char, s ≠ [] → s.all isHexChar = true → s.length % 2 = 0 →
      parse_payload_bytes s = hexDecode? s) ∧
    parse_payload_bytes2 (hexEncode [200]) = parse_payload_bytes (hexEncode [200]) :=
  c5_amended_thm [200] (by decide) (by decide)
